import Mathlib

/-!
The nachat client: timeline view, scroll geometry and backlog pagination

A shallow embedding of `src/TimelineView.cpp`.

Conventions of the embedding.

* Pixel quantities are mathematical integers.  Sizes that Qt guarantees to be
  non-negative (the viewport's contents rectangle, the font's line spacing and
  height, the height of a block's bounding rectangle) are naturals, cast to
  `Int` where the source computes in `int`.  Measured heights are whole pixels;
  rounding of `qreal` is outside the embedding.
* `content_height_`, whose declaration is in `TimelineView.hpp`, is kept as a
  mathematical integer.  `update_scrollbar` converts it to `int`: the values it
  declares `const int`, and the value it hands to the scroll bar, are 32-bit
  two's-complement integers, `wrap_int`.
* What the source gets from its collaborators (font metrics, text layout, room
  state) is a parameter, `Env`.
* `QAbstractSlider` is modelled by the three things the source relies on: the
  minimum is `0`, `setValue` bounds its argument into the range and emits
  `valueChanged` when the value changed, and `setMaximum` re-bounds the value
  when the range changed.  The constructor connects `valueChanged` to
  `grow_backlog`, so both setters take and return the whole view.
* `std::deque` is a `List` whose head is `front()` and whose last element is
  `back()`.  `back()` of an empty deque is undefined; `push_back` returns
  `none` there.
* Calls of `room_.get_messages` are appended to the field `requests`.
-/

namespace Nachat

/-- The fields of `matrix::proto::Event` that the view reads. -/
structure Event where
  type : String
  sender : String
  origin_server_ts : Nat
  body : String
deriving DecidableEq

/-- Mirror of `matrix::Room::Direction`. -/
inductive Direction where
  | FORWARD
  | BACKWARD
deriving DecidableEq

/-- One call of `room_.get_messages(direction, from, limit)`. -/
structure Request where
  direction : Direction
  src : String
  limit : Nat
deriving DecidableEq

/-- Size of the viewport's contents rectangle (its top-left corner is the origin). -/
structure Viewport where
  width : Nat
  height : Nat
deriving DecidableEq

/-- Mirror of `QSize`; an invalid size has negative components. -/
structure QSize where
  width : Int
  height : Int
deriving DecidableEq

/-- Mirror of `QResizeEvent`. -/
structure QResizeEvent where
  size : QSize
  oldSize : QSize
deriving DecidableEq

/-- The collaborators of the view: font metrics, the text-layout primitive and
the operations of `matrix::RoomState`, over a type `σ` of room states. -/
structure Env (σ : Type) where
  /-- Value of `fontMetrics().lineSpacing()`. -/
  lineSpacing : Nat
  /-- Value of `fontMetrics().height()`. -/
  height : Nat
  /-- Value of `fontMetrics().leading()`. -/
  leading : Int
  /-- Display name of a sender: `state.member(sender)` followed by
  `state.member_name`, `none` when the sender is unknown. -/
  member_name : σ → String → Option String
  /-- Effect of `RoomState::revert`. -/
  revert : σ → Event → σ
  /-- Height of `Block::bounding_rect` for a block whose lines were last broken
  by `update_layout` at the given visible width, given the text of the name
  layout and the event. -/
  rect_height : Nat → String → Event → Nat
  /-- The page-step unit of `resizeEvent` is a divisor and so is not zero. -/
  unit_ne_zero : ((height : Int) * 2 + leading) + ((lineSpacing / 3 : Nat) : Int) ≠ 0

/-- Mirror of `TimelineView::Block`: the sender, the text of the name layout, the
event it shows, and the visible width at which `update_layout` last ran (which
fixes the line breaks cached in its layouts). -/
structure Block where
  sender_id_ : String
  name : String
  event : Event
  layout_width : Nat
deriving DecidableEq

/-- Mirror of `TimelineView::Batch`. -/
structure Batch where
  blocks : List Block
  token : String
deriving DecidableEq

/-- The part of `QScrollBar` the view uses; the minimum is `0`. -/
structure ScrollBar where
  value : Int
  maximum : Int
  pageStep : Int
  singleStep : Int
deriving DecidableEq

/-- Mirror of the members of `TimelineView`, with the viewport geometry, the
vertical scroll bar and the log of issued `get_messages` calls. -/
structure TimelineView (σ : Type) where
  viewport : Viewport
  scroll : ScrollBar
  initial_state_ : σ
  batches_ : List Batch
  head_color_alternate_ : Bool
  backlog_growing_ : Bool
  backlog_growable_ : Bool
  content_height_ : Int
  prev_batch_ : String
  requests : List Request

variable {σ : Type}

/-- Embedding of `TimelineView::block_margin`. -/
def block_margin (env : Env σ) : Int := ((env.lineSpacing / 3 : Nat) : Int)

/-- Embedding of `TimelineView::block_spacing`. -/
def block_spacing (env : Env σ) : Int := ((env.lineSpacing / 3 : Nat) : Int)

/-- Embedding of `TimelineView::avatar_size`. -/
def avatar_size (env : Env σ) : Int := (env.height : Int) * 2 + env.leading

/-- Embedding of `TimelineView::visible_width`. -/
def visible_width (s : TimelineView σ) : Nat := s.viewport.width

/-- Embedding of `TimelineView::scrollback_trigger_size`. -/
def scrollback_trigger_size (s : TimelineView σ) : Int := ((s.viewport.height / 2 : Nat) : Int)

/-- Embedding of `Block::update_layout`: the lines are broken again at the
current visible width. -/
def Block.update_layout (view : TimelineView σ) (b : Block) : Block :=
  { b with layout_width := visible_width view }

/-- Embedding of the constructor `Block::Block(view, state, e, avatar)`: the name
layout gets the sender's display name when the sender is a member (it stays
empty otherwise) and the block is laid out once. -/
def Block.create (env : Env σ) (view : TimelineView σ) (state : σ) (e : Event) : Block :=
  Block.update_layout view
    { sender_id_ := e.sender
      name := match env.member_name state e.sender with
        | some n => n
        | none => ""
      event := e
      layout_width := 0 }

/-- Height of `Block::bounding_rect(view)`. -/
def Block.bounding_rect_height (env : Env σ) (b : Block) : Int :=
  (env.rect_height b.layout_width b.name b.event : Int)

/-- Embedding of the constructor `TimelineView::TimelineView`; Qt creates the
scroll bar of a scroll area with range `[0, 0]`. -/
def TimelineView.create (initial_state : σ) (viewport : Viewport) : TimelineView σ :=
  { viewport := viewport
    scroll := { value := 0, maximum := 0, pageStep := 10, singleStep := 20 }
    initial_state_ := initial_state
    batches_ := []
    head_color_alternate_ := true
    backlog_growing_ := false
    backlog_growable_ := true
    content_height_ := 0
    prev_batch_ := ""
    requests := [] }

/-- Embedding of `TimelineView::grow_backlog`.  The reply's `finished` and
`error` signals arrive later, as `prepend_batch` and `fetch_error`. -/
def grow_backlog (s : TimelineView σ) : TimelineView σ :=
  if decide (s.scroll.value ≥ scrollback_trigger_size s) || s.backlog_growing_
      || !s.backlog_growable_ then s
  else
    { s with
      backlog_growing_ := true
      requests := s.requests ++ [{ direction := Direction.BACKWARD, src := s.prev_batch_, limit := 100 }] }

/-- The lambda connected to the reply's `error` signal in `grow_backlog`. -/
def fetch_error (s : TimelineView σ) : TimelineView σ :=
  { s with backlog_growing_ := false }

/-- Model of `QAbstractSlider::setValue` on the vertical scroll bar: the value
is bounded into `[0, maximum]`; when it changed, `valueChanged` runs
`grow_backlog`. -/
def setValue (v : Int) (s : TimelineView σ) : TimelineView σ :=
  let bounded := max 0 (min s.scroll.maximum v)
  if bounded = s.scroll.value then s
  else grow_backlog { s with scroll := { s.scroll with value := bounded } }

/-- Model of `QAbstractSlider::setMaximum` on the vertical scroll bar, for the
arguments the source passes (`update_scrollbar` passes `0` or a non-negative
difference, which leaves the minimum at `0`): when the range changed the value
is re-bounded. -/
def setMaximum (m : Int) (s : TimelineView σ) : TimelineView σ :=
  let newMax := max 0 m
  if newMax = s.scroll.maximum then s
  else setValue s.scroll.value { s with scroll := { s.scroll with maximum := newMax } }

/-- Model of `QAbstractSlider::setPageStep`. -/
def setPageStep (step : Int) (s : TimelineView σ) : TimelineView σ :=
  if step = s.scroll.pageStep then s
  else { s with scroll := { s.scroll with pageStep := |step| } }

/-- The value of a mathematical integer as a 32-bit two's-complement `int`:
the integer in `[-2147483648, 2147483647]` that differs from it by a multiple
of `4294967296`. -/
def wrap_int (x : Int) : Int := (x + 2147483648) % 4294967296 - 2147483648

/-- Embedding of `TimelineView::update_scrollbar`.  `fake_height` is a
`const int`, so the sum is wrapped; the difference `fake_height - view_height`
is taken only when `0 ≤ view_height ≤ fake_height` and cannot overflow; the new
value of the prepend case is `int` arithmetic on the scroll bar's `int`s. -/
def update_scrollbar (for_prepend : Bool) (s : TimelineView σ) : TimelineView σ :=
  let initially_at_bottom := decide (s.scroll.value = s.scroll.maximum)
  let view_height : Int := (s.viewport.height : Int)
  let old_maximum := s.scroll.maximum
  let fake_height := wrap_int (s.content_height_ + scrollback_trigger_size s)
  let s1 := setMaximum (if view_height > fake_height then 0 else fake_height - view_height) s
  if initially_at_bottom then setValue s1.scroll.maximum s1
  else if for_prepend then
    setValue (wrap_int (s1.scroll.value + wrap_int (s1.scroll.maximum - old_maximum))) s1
  else s1

/-- The deque with `f` applied to its `back()`; `none` on an empty deque. -/
def modify_back (f : Batch → Batch) : List Batch → Option (List Batch)
  | [] => none
  | [b] => some [f b]
  | b :: b' :: rest => (modify_back f (b' :: rest)).map (fun l => b :: l)

/-- Embedding of `TimelineView::push_back`. -/
def push_back (env : Env σ) (state : σ) (ev : Event) (s : TimelineView σ) :
    Option (TimelineView σ) :=
  let growable := s.backlog_growable_ && (ev.type != "m.room.create")
  let block := Block.create env s state ev
  match modify_back (fun b => { b with blocks := b.blocks ++ [block] }) s.batches_ with
  | none => none
  | some batches =>
    let s1 : TimelineView σ :=
      { s with
        backlog_growable_ := growable
        batches_ := batches
        head_color_alternate_ := !s.head_color_alternate_ }
    let s2 := { s1 with content_height_ := s1.content_height_ + block_spacing env }
    let s3 := { s2 with content_height_ := s2.content_height_ + block.bounding_rect_height env }
    some (update_scrollbar false s3)

/-- Embedding of `TimelineView::end_batch`. -/
def end_batch (token : String) (s : TimelineView σ) : TimelineView σ :=
  let s1 : TimelineView σ :=
    match modify_back (fun b => { b with token := token }) s.batches_ with
    | none => { s with prev_batch_ := token }
    | some batches => { s with batches_ := batches }
  { s1 with batches_ := s1.batches_ ++ [{ blocks := [], token := "" }] }

/-- The deque with a block put at the front of the blocks of its `front()`. -/
def emplace_front_block (b : Block) : List Batch → List Batch
  | [] => []
  | batch :: rest => { batch with blocks := b :: batch.blocks } :: rest

/-- The loop of `TimelineView::prepend_batch` over the events of the page. -/
def prepend_events (env : Env σ) : List Event → TimelineView σ → TimelineView σ
  | [], s => s
  | e :: es, s =>
    let block := Block.create env s s.initial_state_ e
    prepend_events env es
      { s with
        batches_ := emplace_front_block block s.batches_
        content_height_ := s.content_height_ + (block.bounding_rect_height env + block_spacing env)
        initial_state_ := env.revert s.initial_state_ e
        backlog_growable_ := s.backlog_growable_ && (e.type != "m.room.create") }

/-- Embedding of `TimelineView::prepend_batch`. -/
def prepend_batch (env : Env σ) (start finish : String) (events : List Event)
    (s : TimelineView σ) : TimelineView σ :=
  let s1 : TimelineView σ :=
    { s with
      backlog_growing_ := false
      prev_batch_ := finish
      batches_ := { blocks := [], token := start } :: s.batches_ }
  let s2 := prepend_events env events s1
  grow_backlog (update_scrollbar true s2)

/-- The inner loop of the reflow in `resizeEvent`, over the blocks of a batch. -/
def relayout_blocks (env : Env σ) (view : TimelineView σ) : List Block → Int → List Block × Int
  | [], c => ([], c)
  | b :: bs, c =>
    let b' := b.update_layout view
    let r := relayout_blocks env view bs (c + (b'.bounding_rect_height env + block_spacing env))
    (b' :: r.1, r.2)

/-- The outer loop of the reflow in `resizeEvent`, over the batches. -/
def relayout_batches (env : Env σ) (view : TimelineView σ) : List Batch → Int → List Batch × Int
  | [], c => ([], c)
  | batch :: rest, c =>
    let r := relayout_blocks env view batch.blocks c
    let r' := relayout_batches env view rest r.2
    ({ batch with blocks := r.1 } :: r'.1, r'.2)

/-- Embedding of `TimelineView::resizeEvent`; the viewport already has its new
size when the event is delivered. -/
def resizeEvent (env : Env σ) (e : QResizeEvent) (s : TimelineView σ) : TimelineView σ :=
  let unit := avatar_size env + block_spacing env
  let window_height : Int := (s.viewport.height : Int)
  let window_units := Int.tdiv window_height unit
  let s1 := setPageStep ((window_units - 1) * unit) s
  let s2 :=
    if e.size.width ≠ e.oldSize.width then
      let r := relayout_batches env s1 s1.batches_ 0
      { s1 with batches_ := r.1, content_height_ := r.2 }
    else s1
  update_scrollbar false s2

/-- The state of the walk in `paintEvent`: the running `offset.y()`, the band
toggle, the blocks whose bounding rectangle was taken (in walk order) and the
blocks drawn, each with the `offset.y()` it was drawn at and its band tone. -/
structure Painter where
  y : Int
  alternate : Bool
  visited : List Block
  painted : List (Block × Int × Bool)
deriving DecidableEq

/-- The inner loop of `paintEvent` over the blocks of one batch, given newest
first; the first branch is the `break`.  The view rectangle has top `0` and
bottom `viewport.height`. -/
def paint_blocks (env : Env σ) (s : TimelineView σ) : List Block → Painter → Painter
  | [], p => p
  | b :: rest, p =>
    let h := b.bounding_rect_height env
    let p1 := { p with y := p.y - h, visited := p.visited ++ [b] }
    if p1.y + h < 0 then p1
    else
      let p2 :=
        if p1.y < (s.viewport.height : Int) then
          { p1 with painted := p1.painted ++ [(b, p1.y, p1.alternate)] }
        else p1
      paint_blocks env s rest { p2 with y := p2.y - block_spacing env, alternate := !p2.alternate }

/-- The outer loop of `paintEvent` over the batches, given newest first. -/
def paint_batches (env : Env σ) (s : TimelineView σ) : List Batch → Painter → Painter
  | [], p => p
  | batch :: rest, p => paint_batches env s rest (paint_blocks env s batch.blocks.reverse p)

/-- Embedding of `TimelineView::paintEvent`: what the walk visits and draws. -/
def paintEvent (env : Env σ) (s : TimelineView σ) : Painter :=
  paint_batches env s s.batches_.reverse
    { y := (s.viewport.height : Int) - (s.scroll.value - s.scroll.maximum)
      alternate := s.head_color_alternate_
      visited := []
      painted := [] }

/-- What can happen to a view between two returns to the event loop. -/
inductive Op (σ : Type) where
  | push_back (state : σ) (ev : Event)
  | end_batch (token : String)
  | prepend_batch (start finish : String) (events : List Event)
  | resize (viewport : Viewport) (oldSize : QSize)
  | scroll (value : Int)
  | fetch_error
  | grow_backlog

/-- One operation on the view.  A resize installs the new viewport size and
delivers the resize event; a scroll is the user moving the slider. -/
def step (env : Env σ) (op : Op σ) (s : TimelineView σ) : Option (TimelineView σ) :=
  match op with
  | Op.push_back state ev => push_back env state ev s
  | Op.end_batch token => some (end_batch token s)
  | Op.prepend_batch start finish events => some (prepend_batch env start finish events s)
  | Op.resize viewport oldSize =>
    some (resizeEvent env
      { size := { width := (viewport.width : Int), height := (viewport.height : Int) }, oldSize := oldSize }
      { s with viewport := viewport })
  | Op.scroll value => some (setValue value s)
  | Op.fetch_error => some (fetch_error s)
  | Op.grow_backlog => some (grow_backlog s)

/-- A sequence of operations, stopping at the first undefined one. -/
def run (env : Env σ) : List (Op σ) → TimelineView σ → Option (TimelineView σ)
  | [], s => some s
  | op :: ops, s =>
    match step env op s with
    | none => none
    | some s' => run env ops s'

/-- A sequence of live appends. -/
def push_back_all (env : Env σ) : List (σ × Event) → TimelineView σ → Option (TimelineView σ)
  | [], s => some s
  | (state, ev) :: rest, s =>
    match push_back env state ev s with
    | none => none
    | some s' => push_back_all env rest s'

/-- The states a view can be in: a freshly constructed one, and what any
defined operation makes of a reachable one. -/
inductive Reachable (env : Env σ) : TimelineView σ → Prop where
  | create (initial_state : σ) (viewport : Viewport) :
      Reachable env (TimelineView.create initial_state viewport)
  | step (op : Op σ) (s s' : TimelineView σ) :
      Reachable env s → step env op s = some s' → Reachable env s'

/-- Sum of bounding-rectangle height plus spacing over a list of blocks. -/
def blocks_height (env : Env σ) : List Block → Int
  | [] => 0
  | b :: bs => (b.bounding_rect_height env + block_spacing env) + blocks_height env bs

/-- Sum of `blocks_height` over a list of batches. -/
def batches_height (env : Env σ) : List Batch → Int
  | [] => 0
  | batch :: rest => blocks_height env batch.blocks + batches_height env rest

/-- The content height recomputed from the store alone. -/
def recomputed_height (env : Env σ) (s : TimelineView σ) : Int :=
  batches_height env s.batches_

/-- The range that `update_scrollbar` computes from the content height and the
viewport height. -/
def scroll_range (s : TimelineView σ) : Int :=
  max 0 (if (s.viewport.height : Int) > wrap_int (s.content_height_ + scrollback_trigger_size s)
    then 0
    else wrap_int (s.content_height_ + scrollback_trigger_size s) - (s.viewport.height : Int))

/-- The scroll bar is consistent: its value lies in its range and its maximum
is the one `update_scrollbar` computes. -/
def ScrollInv (s : TimelineView σ) : Prop :=
  0 ≤ s.scroll.value ∧ s.scroll.value ≤ s.scroll.maximum ∧ s.scroll.maximum = scroll_range s

/-- An environment for examples: line spacing 15 (so spacing 5), every block 50
pixels high, no known members. -/
def plainEnv : Env Unit :=
  { lineSpacing := 15
    height := 14
    leading := 1
    member_name := fun _ _ => none
    revert := fun st _ => st
    rect_height := fun _ _ _ => 50
    unit_ne_zero := by decide }

/-- A text message. -/
def message (sender body : String) : Event :=
  { type := "m.room.message", sender := sender, origin_server_ts := 0, body := body }

/-- A room-creation event. -/
def creation : Event :=
  { type := "m.room.create", sender := "@a:x", origin_server_ts := 0, body := "" }

/-- The operations that build `scenarioView`. -/
def scenarioOps : List (Op Unit) :=
  [Op.end_batch "t0", Op.push_back () (message "@a:x" "hello")]

/-- A viewport 400 high showing one batch with one block of height 50. -/
def scenarioView : TimelineView Unit :=
  (run plainEnv scenarioOps (TimelineView.create () { width := 300, height := 400 })).getD
    (TimelineView.create () { width := 300, height := 400 })

/-- The operations that build `tallView`. -/
def tallOps : List (Op Unit) :=
  [Op.end_batch "t0", Op.push_back () (message "@a:x" "1"), Op.push_back () (message "@a:x" "2"),
    Op.end_batch "t1", Op.push_back () (message "@a:x" "3"), Op.push_back () (message "@a:x" "4"),
    Op.push_back () (message "@a:x" "5")]

/-- A viewport 100 high over two batches, of two and of three blocks, each 50
high; the view is at the bottom. -/
def tallView : TimelineView Unit :=
  (run plainEnv tallOps (TimelineView.create () { width := 300, height := 100 })).getD
    (TimelineView.create () { width := 300, height := 100 })

/-- The operations that build `scrolledView`. -/
def scrolledOps : List (Op Unit) := tallOps ++ [Op.fetch_error, Op.scroll 50]

/-- The view `tallView` after its fetch failed and the user scrolled to value 50,
which is the trigger size of a viewport 100 high. -/
def scrolledView : TimelineView Unit :=
  (run plainEnv scrolledOps (TimelineView.create () { width := 300, height := 100 })).getD
    (TimelineView.create () { width := 300, height := 100 })

/-- An environment in which every block is 1000000000 pixels high, as for a
message of very many lines; line spacing 15. -/
def hugeEnv : Env Unit :=
  { lineSpacing := 15
    height := 14
    leading := 1
    member_name := fun _ _ => none
    revert := fun st _ => st
    rect_height := fun _ _ _ => 1000000000
    unit_ne_zero := by decide }

/-- The operations that build `hugeView`. -/
def hugeOps : List (Op Unit) :=
  [Op.end_batch "t0", Op.push_back () (message "@a:x" "1"), Op.push_back () (message "@a:x" "2"),
    Op.fetch_error, Op.scroll 60]

/-- A viewport 100 high over one batch of two blocks of `hugeEnv`, scrolled to
value 60; the content height is 2000000010 and the maximum 1999999960. -/
def hugeView : TimelineView Unit :=
  (run hugeEnv hugeOps (TimelineView.create () { width := 300, height := 100 })).getD
    (TimelineView.create () { width := 300, height := 100 })

/-- A sequence of operations of every kind, for examples. -/
def mixedOps : List (Op Unit) :=
  [Op.scroll 0, Op.grow_backlog, Op.fetch_error,
    Op.resize { width := 200, height := 50 } { width := 300, height := 400 },
    Op.push_back () (message "@a:x" "later"), Op.end_batch "t9",
    Op.prepend_batch "s" "e" [message "@a:x" "older"], Op.scroll 3, Op.grow_backlog]

end Nachat

namespace Nachat

variable {σ : Type}

/-! ## What each operation leaves alone -/

theorem grow_backlog_scroll (s : TimelineView σ) : (grow_backlog s).scroll = s.scroll := by
  unfold grow_backlog; split <;> rfl

theorem grow_backlog_viewport (s : TimelineView σ) : (grow_backlog s).viewport = s.viewport := by
  unfold grow_backlog; split <;> rfl

theorem grow_backlog_batches (s : TimelineView σ) : (grow_backlog s).batches_ = s.batches_ := by
  unfold grow_backlog; split <;> rfl

theorem grow_backlog_content_height (s : TimelineView σ) :
    (grow_backlog s).content_height_ = s.content_height_ := by
  unfold grow_backlog; split <;> rfl

theorem grow_backlog_growable (s : TimelineView σ) :
    (grow_backlog s).backlog_growable_ = s.backlog_growable_ := by
  unfold grow_backlog; split <;> rfl

theorem grow_backlog_prev_batch (s : TimelineView σ) :
    (grow_backlog s).prev_batch_ = s.prev_batch_ := by
  unfold grow_backlog; split <;> rfl

theorem grow_backlog_trigger (s : TimelineView σ) :
    scrollback_trigger_size (grow_backlog s) = scrollback_trigger_size s := by
  unfold scrollback_trigger_size; rw [grow_backlog_viewport]

/-- A call that passes the guard issues one request and marks the fetch. -/
theorem grow_backlog_fires (s : TimelineView σ)
    (hv : s.scroll.value < scrollback_trigger_size s)
    (hg : s.backlog_growing_ = false) (hb : s.backlog_growable_ = true) :
    grow_backlog s =
      { s with
        backlog_growing_ := true
        requests := s.requests ++
          [{ direction := Direction.BACKWARD, src := s.prev_batch_, limit := 100 }] } := by
  unfold grow_backlog
  rw [if_neg]
  simp [hg, hb, hv]

/-- A call that fails the guard returns the view as it is. -/
theorem grow_backlog_idle (s : TimelineView σ)
    (h : scrollback_trigger_size s ≤ s.scroll.value ∨ s.backlog_growing_ = true ∨
      s.backlog_growable_ = false) :
    grow_backlog s = s := by
  unfold grow_backlog
  rw [if_pos]
  rcases h with h | h | h
  · simp [h]
  · simp [h]
  · simp [h]

theorem grow_backlog_requests_of_not_growable (s : TimelineView σ)
    (h : s.backlog_growable_ = false) : (grow_backlog s).requests = s.requests := by
  rw [grow_backlog_idle s (Or.inr (Or.inr h))]

theorem setValue_viewport (v : Int) (s : TimelineView σ) : (setValue v s).viewport = s.viewport := by
  unfold setValue; simp only []; split
  · rfl
  · rw [grow_backlog_viewport]

theorem setValue_batches (v : Int) (s : TimelineView σ) : (setValue v s).batches_ = s.batches_ := by
  unfold setValue; simp only []; split
  · rfl
  · rw [grow_backlog_batches]

theorem setValue_content_height (v : Int) (s : TimelineView σ) :
    (setValue v s).content_height_ = s.content_height_ := by
  unfold setValue; simp only []; split
  · rfl
  · rw [grow_backlog_content_height]

theorem setValue_growable (v : Int) (s : TimelineView σ) :
    (setValue v s).backlog_growable_ = s.backlog_growable_ := by
  unfold setValue; simp only []; split
  · rfl
  · rw [grow_backlog_growable]

theorem setValue_prev_batch (v : Int) (s : TimelineView σ) :
    (setValue v s).prev_batch_ = s.prev_batch_ := by
  unfold setValue; simp only []; split
  · rfl
  · rw [grow_backlog_prev_batch]

theorem setValue_maximum (v : Int) (s : TimelineView σ) :
    (setValue v s).scroll.maximum = s.scroll.maximum := by
  unfold setValue; simp only []; split
  · rfl
  · rw [grow_backlog_scroll]

theorem setValue_value (v : Int) (s : TimelineView σ) :
    (setValue v s).scroll.value = max 0 (min s.scroll.maximum v) := by
  unfold setValue; simp only []; split
  · next h => exact h.symm
  · rw [grow_backlog_scroll]

theorem setValue_requests_of_not_growable (v : Int) (s : TimelineView σ)
    (h : s.backlog_growable_ = false) : (setValue v s).requests = s.requests := by
  unfold setValue; simp only []; split
  · rfl
  · exact grow_backlog_requests_of_not_growable _ h

theorem setMaximum_viewport (m : Int) (s : TimelineView σ) :
    (setMaximum m s).viewport = s.viewport := by
  unfold setMaximum; simp only []; split
  · rfl
  · rw [setValue_viewport]

theorem setMaximum_batches (m : Int) (s : TimelineView σ) :
    (setMaximum m s).batches_ = s.batches_ := by
  unfold setMaximum; simp only []; split
  · rfl
  · rw [setValue_batches]

theorem setMaximum_content_height (m : Int) (s : TimelineView σ) :
    (setMaximum m s).content_height_ = s.content_height_ := by
  unfold setMaximum; simp only []; split
  · rfl
  · rw [setValue_content_height]

theorem setMaximum_growable (m : Int) (s : TimelineView σ) :
    (setMaximum m s).backlog_growable_ = s.backlog_growable_ := by
  unfold setMaximum; simp only []; split
  · rfl
  · rw [setValue_growable]

theorem setMaximum_prev_batch (m : Int) (s : TimelineView σ) :
    (setMaximum m s).prev_batch_ = s.prev_batch_ := by
  unfold setMaximum; simp only []; split
  · rfl
  · rw [setValue_prev_batch]

theorem setMaximum_maximum (m : Int) (s : TimelineView σ) :
    (setMaximum m s).scroll.maximum = max 0 m := by
  unfold setMaximum; simp only []; split
  · next h => exact h.symm
  · rw [setValue_maximum]

theorem setMaximum_value (m : Int) (s : TimelineView σ)
    (h0 : 0 ≤ s.scroll.value) (h1 : s.scroll.value ≤ s.scroll.maximum) :
    (setMaximum m s).scroll.value = max 0 (min (max 0 m) s.scroll.value) := by
  unfold setMaximum; simp only []; split
  · next h => rw [h]; omega
  · rw [setValue_value]

theorem setMaximum_requests_of_not_growable (m : Int) (s : TimelineView σ)
    (h : s.backlog_growable_ = false) : (setMaximum m s).requests = s.requests := by
  unfold setMaximum; simp only []; split
  · rfl
  · exact setValue_requests_of_not_growable _ _ h

theorem update_scrollbar_viewport (fp : Bool) (s : TimelineView σ) :
    (update_scrollbar fp s).viewport = s.viewport := by
  unfold update_scrollbar; simp only []
  split
  · rw [setValue_viewport, setMaximum_viewport]
  · split
    · rw [setValue_viewport, setMaximum_viewport]
    · rw [setMaximum_viewport]

theorem update_scrollbar_batches (fp : Bool) (s : TimelineView σ) :
    (update_scrollbar fp s).batches_ = s.batches_ := by
  unfold update_scrollbar; simp only []
  split
  · rw [setValue_batches, setMaximum_batches]
  · split
    · rw [setValue_batches, setMaximum_batches]
    · rw [setMaximum_batches]

theorem update_scrollbar_content_height (fp : Bool) (s : TimelineView σ) :
    (update_scrollbar fp s).content_height_ = s.content_height_ := by
  unfold update_scrollbar; simp only []
  split
  · rw [setValue_content_height, setMaximum_content_height]
  · split
    · rw [setValue_content_height, setMaximum_content_height]
    · rw [setMaximum_content_height]

theorem update_scrollbar_growable (fp : Bool) (s : TimelineView σ) :
    (update_scrollbar fp s).backlog_growable_ = s.backlog_growable_ := by
  unfold update_scrollbar; simp only []
  split
  · rw [setValue_growable, setMaximum_growable]
  · split
    · rw [setValue_growable, setMaximum_growable]
    · rw [setMaximum_growable]

theorem update_scrollbar_prev_batch (fp : Bool) (s : TimelineView σ) :
    (update_scrollbar fp s).prev_batch_ = s.prev_batch_ := by
  unfold update_scrollbar; simp only []
  split
  · rw [setValue_prev_batch, setMaximum_prev_batch]
  · split
    · rw [setValue_prev_batch, setMaximum_prev_batch]
    · rw [setMaximum_prev_batch]

/-- The range that `update_scrollbar` installs. -/
theorem update_scrollbar_maximum (fp : Bool) (s : TimelineView σ) :
    (update_scrollbar fp s).scroll.maximum =
      max 0 (if (s.viewport.height : Int) > wrap_int (s.content_height_ + scrollback_trigger_size s)
        then 0
        else wrap_int (s.content_height_ + scrollback_trigger_size s) - (s.viewport.height : Int)) := by
  unfold update_scrollbar; simp only []
  split
  · rw [setValue_maximum, setMaximum_maximum]
  · split
    · rw [setValue_maximum, setMaximum_maximum]
    · rw [setMaximum_maximum]

/-- A view at the bottom before `update_scrollbar` is at the bottom after it. -/
theorem update_scrollbar_pinned (fp : Bool) (s : TimelineView σ)
    (h : s.scroll.value = s.scroll.maximum) :
    (update_scrollbar fp s).scroll.value = (update_scrollbar fp s).scroll.maximum := by
  unfold update_scrollbar; simp only []
  rw [if_pos (by simpa using h)]
  rw [setValue_value, setValue_maximum, setMaximum_maximum]
  omega

theorem update_scrollbar_requests_of_not_growable (fp : Bool) (s : TimelineView σ)
    (h : s.backlog_growable_ = false) : (update_scrollbar fp s).requests = s.requests := by
  have hm : ∀ m, (setMaximum m s).backlog_growable_ = false := fun m => by
    rw [setMaximum_growable]; exact h
  unfold update_scrollbar; simp only []
  split
  · rw [setValue_requests_of_not_growable _ _ (hm _), setMaximum_requests_of_not_growable _ _ h]
  · split
    · rw [setValue_requests_of_not_growable _ _ (hm _), setMaximum_requests_of_not_growable _ _ h]
    · rw [setMaximum_requests_of_not_growable _ _ h]

/-! ## The loop of `prepend_batch` -/

theorem blocks_height_append (env : Env σ) (xs ys : List Block) :
    blocks_height env (xs ++ ys) = blocks_height env xs + blocks_height env ys := by
  induction xs with
  | nil => simp [blocks_height]
  | cons x xs ih =>
    have h : blocks_height env (x :: xs ++ ys) =
        (x.bounding_rect_height env + block_spacing env) + blocks_height env (xs ++ ys) := rfl
    rw [h, ih]; simp only [blocks_height]; omega

theorem blocks_height_nonneg (env : Env σ) (xs : List Block) : 0 ≤ blocks_height env xs := by
  induction xs with
  | nil => simp [blocks_height]
  | cons x xs ih =>
    simp only [blocks_height, Block.bounding_rect_height, block_spacing]
    omega

theorem prepend_events_scroll (env : Env σ) (es : List Event) (s : TimelineView σ) :
    (prepend_events env es s).scroll = s.scroll := by
  induction es generalizing s with
  | nil => rfl
  | cons e es ih => simp only [prepend_events]; rw [ih]

theorem prepend_events_viewport (env : Env σ) (es : List Event) (s : TimelineView σ) :
    (prepend_events env es s).viewport = s.viewport := by
  induction es generalizing s with
  | nil => rfl
  | cons e es ih => simp only [prepend_events]; rw [ih]

theorem prepend_events_prev_batch (env : Env σ) (es : List Event) (s : TimelineView σ) :
    (prepend_events env es s).prev_batch_ = s.prev_batch_ := by
  induction es generalizing s with
  | nil => rfl
  | cons e es ih => simp only [prepend_events]; rw [ih]

theorem prepend_events_growing (env : Env σ) (es : List Event) (s : TimelineView σ) :
    (prepend_events env es s).backlog_growing_ = s.backlog_growing_ := by
  induction es generalizing s with
  | nil => rfl
  | cons e es ih => simp only [prepend_events]; rw [ih]

theorem prepend_events_requests (env : Env σ) (es : List Event) (s : TimelineView σ) :
    (prepend_events env es s).requests = s.requests := by
  induction es generalizing s with
  | nil => rfl
  | cons e es ih => simp only [prepend_events]; rw [ih]

/-- The flag after the loop: still set exactly when it was set and no event of
the page is a room creation. -/
theorem prepend_events_growable (env : Env σ) (es : List Event) (s : TimelineView σ) :
    (prepend_events env es s).backlog_growable_ =
      (s.backlog_growable_ && es.all (fun e => e.type != "m.room.create")) := by
  induction es generalizing s with
  | nil => simp [prepend_events]
  | cons e es ih => simp only [prepend_events]; rw [ih]; simp [Bool.and_assoc]

/-- What the loop does to the front batch and to the running height. -/
theorem prepend_events_front (env : Env σ) (es : List Event) (s : TimelineView σ)
    (b : Batch) (rest : List Batch) (hb : s.batches_ = b :: rest) :
    ∃ blocks : List Block,
      (prepend_events env es s).batches_ = { b with blocks := blocks ++ b.blocks } :: rest ∧
      blocks.map (fun x => x.event) = es.reverse ∧
      (prepend_events env es s).content_height_ = s.content_height_ + blocks_height env blocks := by
  induction es generalizing s b with
  | nil => exact ⟨[], by simp [prepend_events, hb], rfl, by simp [prepend_events, blocks_height]⟩
  | cons e es ih =>
    simp only [prepend_events]
    obtain ⟨blocks, h1, h2, h3⟩ := ih
      { s with
        batches_ := emplace_front_block (Block.create env s s.initial_state_ e) s.batches_
        content_height_ := s.content_height_ +
          ((Block.create env s s.initial_state_ e).bounding_rect_height env + block_spacing env)
        initial_state_ := env.revert s.initial_state_ e
        backlog_growable_ := s.backlog_growable_ && (e.type != "m.room.create") }
      { b with blocks := Block.create env s s.initial_state_ e :: b.blocks }
      (by simp [hb, emplace_front_block])
    refine ⟨blocks ++ [Block.create env s s.initial_state_ e], ?_, ?_, ?_⟩
    · rw [h1]; simp
    · simp [h2, Block.create, Block.update_layout]
    · rw [h3, blocks_height_append]; simp only [blocks_height]; omega

/-! ## The newest batch -/

theorem modify_back_isSome (f : Batch → Batch) (bs : List Batch) (h : bs ≠ []) :
    ∃ bs', modify_back f bs = some bs' := by
  induction bs with
  | nil => exact absurd rfl h
  | cons b rest ih =>
    cases rest with
    | nil => exact ⟨[f b], rfl⟩
    | cons b' rest' =>
      obtain ⟨l, hl⟩ := ih (by simp)
      exact ⟨b :: l, by simp [modify_back, hl]⟩

theorem modify_back_ne_nil (f : Batch → Batch) (bs bs' : List Batch)
    (h : modify_back f bs = some bs') : bs' ≠ [] := by
  cases bs with
  | nil => simp [modify_back] at h
  | cons b rest =>
    cases rest with
    | nil => simp [modify_back] at h; rw [← h]; simp
    | cons b' rest' =>
      simp only [modify_back, Option.map_eq_some'] at h
      obtain ⟨l, _, hl⟩ := h
      rw [← hl]; simp

theorem modify_back_none (f : Batch → Batch) (bs : List Batch)
    (h : modify_back f bs = none) : bs = [] := by
  cases bs with
  | nil => rfl
  | cons b rest =>
    obtain ⟨l, hl⟩ := modify_back_isSome f (b :: rest) (by simp)
    rw [hl] at h; cases h

/-- Changing the newest batch changes the recomputed height by what the change
adds to that batch. -/
theorem modify_back_height (env : Env σ) (f : Batch → Batch) (d : Int)
    (hf : ∀ b, blocks_height env (f b).blocks = blocks_height env b.blocks + d)
    (bs bs' : List Batch) (h : modify_back f bs = some bs') :
    batches_height env bs' = batches_height env bs + d := by
  induction bs generalizing bs' with
  | nil => simp [modify_back] at h
  | cons b rest ih =>
    cases rest with
    | nil =>
      simp only [modify_back, Option.some.injEq] at h
      rw [← h]; simp only [batches_height, hf]; omega
    | cons b' rest' =>
      simp only [modify_back, Option.map_eq_some'] at h
      obtain ⟨l, hl, hb⟩ := h
      rw [← hb]
      have := ih l hl
      simp only [batches_height] at this ⊢
      omega

theorem batches_height_append (env : Env σ) (xs ys : List Batch) :
    batches_height env (xs ++ ys) = batches_height env xs + batches_height env ys := by
  induction xs with
  | nil => simp [batches_height]
  | cons x xs ih =>
    have h : batches_height env (x :: xs ++ ys) =
        blocks_height env x.blocks + batches_height env (xs ++ ys) := rfl
    rw [h, ih]; simp only [batches_height]; omega

/-- What a defined `push_back` returns. -/
theorem push_back_spec (env : Env σ) (state : σ) (ev : Event) (s s' : TimelineView σ)
    (h : push_back env state ev s = some s') :
    ∃ batches,
      modify_back (fun b => { b with blocks := b.blocks ++ [Block.create env s state ev] })
        s.batches_ = some batches ∧
      s' = update_scrollbar false
        { s with
          backlog_growable_ := s.backlog_growable_ && (ev.type != "m.room.create")
          batches_ := batches
          head_color_alternate_ := !s.head_color_alternate_
          content_height_ := s.content_height_ + block_spacing env +
            (Block.create env s state ev).bounding_rect_height env } := by
  unfold push_back at h
  simp only [] at h
  split at h
  · cases h
  · next batches hb =>
    refine ⟨batches, hb, ?_⟩
    simp only [Option.some.injEq] at h
    exact h.symm

/-- On a view with at least one batch `push_back` is defined. -/
theorem push_back_defined (env : Env σ) (state : σ) (ev : Event) (s : TimelineView σ)
    (h : s.batches_ ≠ []) : ∃ s', push_back env state ev s = some s' := by
  obtain ⟨bs', hb⟩ := modify_back_isSome
    (fun b => { b with blocks := b.blocks ++ [Block.create env s state ev] }) s.batches_ h
  unfold push_back
  simp only [hb]
  exact ⟨_, rfl⟩

theorem push_back_batches_ne_nil (env : Env σ) (state : σ) (ev : Event) (s s' : TimelineView σ)
    (h : push_back env state ev s = some s') : s'.batches_ ≠ [] := by
  obtain ⟨batches, hb, hs⟩ := push_back_spec env state ev s s' h
  rw [hs, update_scrollbar_batches]
  exact modify_back_ne_nil _ _ _ hb

theorem end_batch_batches_ne_nil (token : String) (s : TimelineView σ) :
    (end_batch token s).batches_ ≠ [] := by
  unfold end_batch; simp

theorem end_batch_height (env : Env σ) (token : String) (s : TimelineView σ) :
    recomputed_height env (end_batch token s) = recomputed_height env s := by
  unfold end_batch recomputed_height
  simp only []
  rw [batches_height_append]
  split
  · simp [batches_height, blocks_height]
  · next batches hb =>
    have := modify_back_height env (fun b => { b with token := token }) 0 (by simp) _ _ hb
    simp [batches_height, blocks_height, this]

theorem end_batch_content_height (token : String) (s : TimelineView σ) :
    (end_batch token s).content_height_ = s.content_height_ := by
  unfold end_batch
  simp only []
  split <;> rfl

/-! ## The reflow -/

theorem relayout_blocks_height (env : Env σ) (view : TimelineView σ) (bs : List Block) (c : Int) :
    (relayout_blocks env view bs c).2 =
      c + blocks_height env (relayout_blocks env view bs c).1 := by
  induction bs generalizing c with
  | nil => simp [relayout_blocks, blocks_height]
  | cons b bs ih =>
    simp only [relayout_blocks, blocks_height]
    rw [ih]; omega

theorem relayout_batches_height (env : Env σ) (view : TimelineView σ) (bs : List Batch) (c : Int) :
    (relayout_batches env view bs c).2 =
      c + batches_height env (relayout_batches env view bs c).1 := by
  induction bs generalizing c with
  | nil => simp [relayout_batches, batches_height]
  | cons b bs ih =>
    simp only [relayout_batches, batches_height]
    rw [ih, relayout_blocks_height]; omega

theorem relayout_batches_ne_nil (env : Env σ) (view : TimelineView σ) (bs : List Batch) (c : Int)
    (h : bs ≠ []) : (relayout_batches env view bs c).1 ≠ [] := by
  cases bs with
  | nil => exact absurd rfl h
  | cons b bs => simp [relayout_batches]

theorem setPageStep_batches (step : Int) (s : TimelineView σ) :
    (setPageStep step s).batches_ = s.batches_ := by
  unfold setPageStep; split <;> rfl

theorem setPageStep_content_height (step : Int) (s : TimelineView σ) :
    (setPageStep step s).content_height_ = s.content_height_ := by
  unfold setPageStep; split <;> rfl

theorem setPageStep_viewport (step : Int) (s : TimelineView σ) :
    (setPageStep step s).viewport = s.viewport := by
  unfold setPageStep; split <;> rfl

theorem setPageStep_growable (step : Int) (s : TimelineView σ) :
    (setPageStep step s).backlog_growable_ = s.backlog_growable_ := by
  unfold setPageStep; split <;> rfl

theorem setPageStep_requests (step : Int) (s : TimelineView σ) :
    (setPageStep step s).requests = s.requests := by
  unfold setPageStep; split <;> rfl

theorem setPageStep_value (step : Int) (s : TimelineView σ) :
    (setPageStep step s).scroll.value = s.scroll.value := by
  unfold setPageStep; split <;> rfl

theorem setPageStep_maximum (step : Int) (s : TimelineView σ) :
    (setPageStep step s).scroll.maximum = s.scroll.maximum := by
  unfold setPageStep; split <;> rfl

/-! ## Consistency of the scroll bar -/

theorem update_scrollbar_maximum_eq (fp : Bool) (s : TimelineView σ) :
    (update_scrollbar fp s).scroll.maximum = scroll_range s :=
  update_scrollbar_maximum fp s

theorem scroll_range_congr (s s' : TimelineView σ) (hv : s'.viewport = s.viewport)
    (hc : s'.content_height_ = s.content_height_) : scroll_range s' = scroll_range s := by
  unfold scroll_range scrollback_trigger_size; rw [hv, hc]

theorem scroll_range_nonneg (s : TimelineView σ) : 0 ≤ scroll_range s := by
  unfold scroll_range; omega

/-- An integer in the range of `int` is its own `int` value. -/
theorem wrap_int_of_fits (x : Int) (h0 : -2147483648 ≤ x) (h1 : x ≤ 2147483647) :
    wrap_int x = x := by
  unfold wrap_int; omega

theorem wrap_int_le (x : Int) : wrap_int x ≤ 2147483647 := by
  unfold wrap_int; omega

theorem wrap_int_ge (x : Int) : -2147483648 ≤ wrap_int x := by
  unfold wrap_int; omega

/-- The range computed by `update_scrollbar` is at most `INT_MAX`. -/
theorem scroll_range_le (s : TimelineView σ) : scroll_range s ≤ 2147483647 := by
  unfold scroll_range
  have := wrap_int_le (s.content_height_ + scrollback_trigger_size s)
  split_ifs <;> omega

theorem setValue_in_range (v : Int) (s : TimelineView σ) (hm : 0 ≤ s.scroll.maximum) :
    0 ≤ (setValue v s).scroll.value ∧ (setValue v s).scroll.value ≤ (setValue v s).scroll.maximum := by
  rw [setValue_value, setValue_maximum]; omega

theorem setMaximum_in_range (m : Int) (s : TimelineView σ)
    (h0 : 0 ≤ s.scroll.value) (h1 : s.scroll.value ≤ s.scroll.maximum) :
    0 ≤ (setMaximum m s).scroll.value ∧
      (setMaximum m s).scroll.value ≤ (setMaximum m s).scroll.maximum := by
  rw [setMaximum_value m s h0 h1, setMaximum_maximum]; omega

/-- After `update_scrollbar` the scroll bar is consistent. -/
theorem update_scrollbar_inv (fp : Bool) (s : TimelineView σ)
    (h0 : 0 ≤ s.scroll.value) (h1 : s.scroll.value ≤ s.scroll.maximum) :
    ScrollInv (update_scrollbar fp s) := by
  have hmax := update_scrollbar_maximum_eq fp s
  have hr := scroll_range_congr s (update_scrollbar fp s) (update_scrollbar_viewport fp s)
    (update_scrollbar_content_height fp s)
  refine ⟨?_, ?_, by rw [hmax, hr]⟩
  · unfold update_scrollbar; simp only []
    split
    · exact (setValue_in_range _ _ (by rw [setMaximum_maximum]; omega)).1
    · split
      · exact (setValue_in_range _ _ (by rw [setMaximum_maximum]; omega)).1
      · exact (setMaximum_in_range _ _ h0 h1).1
  · unfold update_scrollbar; simp only []
    split
    · exact (setValue_in_range _ _ (by rw [setMaximum_maximum]; omega)).2
    · split
      · exact (setValue_in_range _ _ (by rw [setMaximum_maximum]; omega)).2
      · exact (setMaximum_in_range _ _ h0 h1).2

theorem setValue_self (s : TimelineView σ)
    (h0 : 0 ≤ s.scroll.value) (h1 : s.scroll.value ≤ s.scroll.maximum) :
    setValue s.scroll.value s = s := by
  unfold setValue; simp only []
  rw [if_pos (by omega)]

/-- On a consistent scroll bar `update_scrollbar` changes nothing. -/
theorem update_scrollbar_of_inv (fp : Bool) (s : TimelineView σ) (h : ScrollInv s) :
    update_scrollbar fp s = s := by
  obtain ⟨h0, h1, h2⟩ := h
  have hle := scroll_range_le s
  have hm : setMaximum
      (if (s.viewport.height : Int) > wrap_int (s.content_height_ + scrollback_trigger_size s)
        then 0
        else wrap_int (s.content_height_ + scrollback_trigger_size s) - (s.viewport.height : Int))
      s = s := by
    unfold setMaximum; simp only []
    rw [if_pos]
    rw [h2]; rfl
  unfold update_scrollbar; simp only []
  rw [hm]
  split
  · next hb =>
    have hb' : s.scroll.value = s.scroll.maximum := by simpa using hb
    rw [← hb']; exact setValue_self s h0 h1
  · split
    · have hz : wrap_int (s.scroll.maximum - s.scroll.maximum) = 0 := by
        rw [wrap_int_of_fits] <;> omega
      rw [hz, wrap_int_of_fits _ (by omega) (by omega),
        show s.scroll.value + 0 = s.scroll.value by omega]
      exact setValue_self s h0 h1
    · rfl

theorem end_batch_scroll (token : String) (s : TimelineView σ) :
    (end_batch token s).scroll = s.scroll := by
  unfold end_batch; simp only []; split <;> rfl

theorem end_batch_viewport (token : String) (s : TimelineView σ) :
    (end_batch token s).viewport = s.viewport := by
  unfold end_batch; simp only []; split <;> rfl

theorem end_batch_growable (token : String) (s : TimelineView σ) :
    (end_batch token s).backlog_growable_ = s.backlog_growable_ := by
  unfold end_batch; simp only []; split <;> rfl

theorem end_batch_requests (token : String) (s : TimelineView σ) :
    (end_batch token s).requests = s.requests := by
  unfold end_batch; simp only []; split <;> rfl

theorem ScrollInv_congr (s s' : TimelineView σ) (h : ScrollInv s)
    (hs : s'.scroll = s.scroll) (hv : s'.viewport = s.viewport)
    (hc : s'.content_height_ = s.content_height_) : ScrollInv s' := by
  unfold ScrollInv
  rw [hs, scroll_range_congr s s' hv hc]
  exact h

/-- Every operation keeps the scroll bar consistent. -/
theorem step_ScrollInv (env : Env σ) (op : Op σ) (s s' : TimelineView σ)
    (h : ScrollInv s) (hs : step env op s = some s') : ScrollInv s' := by
  obtain ⟨h0, h1, h2⟩ := h
  cases op with
  | push_back state ev =>
    obtain ⟨batches, _, hs'⟩ := push_back_spec env state ev s s' hs
    rw [hs']
    exact update_scrollbar_inv _ _ h0 h1
  | end_batch token =>
    simp only [step, Option.some.injEq] at hs
    rw [← hs]
    exact ScrollInv_congr s _ ⟨h0, h1, h2⟩ (end_batch_scroll _ _) (end_batch_viewport _ _)
      (end_batch_content_height _ _)
  | prepend_batch start finish events =>
    simp only [step, Option.some.injEq] at hs
    rw [← hs]
    unfold prepend_batch; simp only []
    refine ScrollInv_congr _ _ (update_scrollbar_inv true _ ?_ ?_) (grow_backlog_scroll _)
      (grow_backlog_viewport _) (grow_backlog_content_height _)
    · rw [prepend_events_scroll]; exact h0
    · rw [prepend_events_scroll]; exact h1
  | resize viewport oldSize =>
    simp only [step, Option.some.injEq] at hs
    rw [← hs]
    unfold resizeEvent; simp only []
    apply update_scrollbar_inv
    · split
      · simp only [setPageStep_value]; exact h0
      · simp only [setPageStep_value]; exact h0
    · split
      · simp only [setPageStep_value, setPageStep_maximum]; exact h1
      · simp only [setPageStep_value, setPageStep_maximum]; exact h1
  | scroll value =>
    simp only [step, Option.some.injEq] at hs
    rw [← hs]
    have hr := setValue_in_range value s (by omega)
    refine ⟨hr.1, hr.2, ?_⟩
    rw [setValue_maximum, scroll_range_congr s _ (setValue_viewport _ _) (setValue_content_height _ _)]
    exact h2
  | fetch_error =>
    simp only [step, Option.some.injEq] at hs
    rw [← hs]
    exact ⟨h0, h1, h2⟩
  | grow_backlog =>
    simp only [step, Option.some.injEq] at hs
    rw [← hs]
    exact ScrollInv_congr s _ ⟨h0, h1, h2⟩ (grow_backlog_scroll _) (grow_backlog_viewport _)
      (grow_backlog_content_height _)

theorem create_ScrollInv (initial_state : σ) (viewport : Viewport) :
    ScrollInv (TimelineView.create initial_state viewport) := by
  unfold ScrollInv scroll_range scrollback_trigger_size wrap_int TimelineView.create
  simp only []
  refine ⟨le_refl _, le_refl _, ?_⟩
  split <;> omega

/-- In every reachable state the scroll bar is consistent. -/
theorem reachable_ScrollInv (env : Env σ) (s : TimelineView σ) (h : Reachable env s) :
    ScrollInv s := by
  induction h with
  | create initial_state viewport => exact create_ScrollInv initial_state viewport
  | step op s s' _ hs ih => exact step_ScrollInv env op s s' ih hs

theorem reachable_run (env : Env σ) (ops : List (Op σ)) (s s' : TimelineView σ)
    (h : Reachable env s) (hr : run env ops s = some s') : Reachable env s' := by
  induction ops generalizing s with
  | nil => simp only [run, Option.some.injEq] at hr; rw [← hr]; exact h
  | cons op ops ih =>
    simp only [run] at hr
    split at hr
    · cases hr
    · next s1 h1 => exact ih s1 (Reachable.step op s s1 h h1) hr

theorem scenarioView_reachable : Reachable plainEnv scenarioView :=
  reachable_run plainEnv scenarioOps (TimelineView.create () { width := 300, height := 400 }) scenarioView
    (Reachable.create () _) rfl

theorem tallView_reachable : Reachable plainEnv tallView :=
  reachable_run plainEnv tallOps (TimelineView.create () { width := 300, height := 100 }) tallView
    (Reachable.create () _) rfl

theorem scrolledView_reachable : Reachable plainEnv scrolledView :=
  reachable_run plainEnv scrolledOps (TimelineView.create () { width := 300, height := 100 }) scrolledView
    (Reachable.create () _) rfl

/-! ## The content height -/

/-- A defined `push_back` keeps the content height equal to the recomputed one. -/
theorem push_back_height (env : Env σ) (state : σ) (ev : Event) (s s' : TimelineView σ)
    (hi : s.content_height_ = recomputed_height env s)
    (h : push_back env state ev s = some s') :
    s'.content_height_ = recomputed_height env s' := by
  obtain ⟨batches, hb, hs⟩ := push_back_spec env state ev s s' h
  have hh := modify_back_height env
    (fun b => { b with blocks := b.blocks ++ [Block.create env s state ev] })
    ((Block.create env s state ev).bounding_rect_height env + block_spacing env)
    (by intro b; simp only [blocks_height_append, blocks_height]; omega) _ _ hb
  rw [hs]
  unfold recomputed_height at hi ⊢
  rw [update_scrollbar_content_height, update_scrollbar_batches]
  simp only []
  rw [hh, hi]; omega

theorem push_back_all_height (env : Env σ) (appends : List (σ × Event)) (s : TimelineView σ)
    (hne : s.batches_ ≠ []) (hi : s.content_height_ = recomputed_height env s) :
    ∃ s', push_back_all env appends s = some s' ∧
      s'.content_height_ = recomputed_height env s' := by
  induction appends generalizing s with
  | nil => exact ⟨s, rfl, hi⟩
  | cons a rest ih =>
    obtain ⟨state, ev⟩ := a
    obtain ⟨s1, h1⟩ := push_back_defined env state ev s hne
    obtain ⟨s2, h2, h3⟩ := ih s1 (push_back_batches_ne_nil env state ev s s1 h1)
      (push_back_height env state ev s s1 hi h1)
    exact ⟨s2, by simp only [push_back_all, h1, h2], h3⟩

/-- What `prepend_batch` does to the store, the content height and the token. -/
theorem prepend_batch_store (env : Env σ) (start finish : String) (events : List Event)
    (s : TimelineView σ) :
    ∃ blocks : List Block,
      (prepend_batch env start finish events s).batches_ =
        { blocks := blocks, token := start } :: s.batches_ ∧
      blocks.map (fun x => x.event) = events.reverse ∧
      (prepend_batch env start finish events s).content_height_ =
        s.content_height_ + blocks_height env blocks := by
  obtain ⟨blocks, h1, h2, h3⟩ := prepend_events_front env events
    { s with
      backlog_growing_ := false
      prev_batch_ := finish
      batches_ := { blocks := [], token := start } :: s.batches_ }
    { blocks := [], token := start } s.batches_ rfl
  refine ⟨blocks, ?_, h2, ?_⟩
  · unfold prepend_batch; simp only []
    rw [grow_backlog_batches, update_scrollbar_batches, h1]; simp
  · unfold prepend_batch; simp only []
    rw [grow_backlog_content_height, update_scrollbar_content_height, h3]

theorem prepend_batch_height (env : Env σ) (start finish : String) (events : List Event)
    (s : TimelineView σ) (hi : s.content_height_ = recomputed_height env s) :
    (prepend_batch env start finish events s).content_height_ =
      recomputed_height env (prepend_batch env start finish events s) := by
  obtain ⟨blocks, h1, _, h3⟩ := prepend_batch_store env start finish events s
  unfold recomputed_height at hi ⊢
  rw [h3, h1, hi]; simp only [batches_height]; omega

theorem resizeEvent_height (env : Env σ) (e : QResizeEvent) (s : TimelineView σ)
    (hw : e.size.width ≠ e.oldSize.width) :
    (resizeEvent env e s).content_height_ = recomputed_height env (resizeEvent env e s) := by
  unfold resizeEvent recomputed_height; simp only []
  rw [update_scrollbar_content_height, update_scrollbar_batches, if_pos hw]
  simp only []
  rw [relayout_batches_height]; omega

/-- C1. From a freshly constructed view on which `end_batch` ran once, every
finite sequence of `push_back` is defined and ends in a view whose
`content_height_` is the sum, over all blocks of all batches, of bounding-rect
height plus `block_spacing()`; `prepend_batch` keeps that equality; and after a
`resizeEvent` whose width changed the equality holds. -/
theorem content_height_is_recomputed_sum (env : Env σ) :
    (∀ (initial_state : σ) (viewport : Viewport) (token : String) (appends : List (σ × Event)),
      ∃ s, push_back_all env appends
          (end_batch token (TimelineView.create initial_state viewport)) = some s ∧
        s.content_height_ = recomputed_height env s) ∧
    (∀ (s : TimelineView σ) (start finish : String) (events : List Event),
      s.content_height_ = recomputed_height env s →
      (prepend_batch env start finish events s).content_height_ =
        recomputed_height env (prepend_batch env start finish events s)) ∧
    (∀ (s : TimelineView σ) (e : QResizeEvent), e.size.width ≠ e.oldSize.width →
      (resizeEvent env e s).content_height_ = recomputed_height env (resizeEvent env e s)) := by
  refine ⟨?_, ?_, ?_⟩
  · intro initial_state viewport token appends
    apply push_back_all_height env appends _ (end_batch_batches_ne_nil _ _)
    rw [end_batch_content_height, end_batch_height]
    rfl
  · intro s start finish events hi
    exact prepend_batch_height env start finish events s hi
  · intro s e hw
    exact resizeEvent_height env e s hw

/-- C1, on the example views: a page of two events prepended to `tallView`, and
`tallView` resized from width 300 to width 200. -/
theorem content_height_is_recomputed_sum_witness :
    tallView.content_height_ = recomputed_height plainEnv tallView ∧
    (prepend_batch plainEnv "s" "e" [message "@a:x" "0", message "@a:x" "-1"] tallView).content_height_ =
      recomputed_height plainEnv
        (prepend_batch plainEnv "s" "e" [message "@a:x" "0", message "@a:x" "-1"] tallView) ∧
    (200 : Int) ≠ 300 ∧
    (resizeEvent plainEnv { size := { width := 200, height := 100 }, oldSize := { width := 300, height := 100 } }
        { tallView with viewport := { width := 200, height := 100 } }).content_height_ =
      recomputed_height plainEnv
        (resizeEvent plainEnv { size := { width := 200, height := 100 }, oldSize := { width := 300, height := 100 } }
          { tallView with viewport := { width := 200, height := 100 } }) :=
  ⟨by decide,
    (content_height_is_recomputed_sum plainEnv).2.1 tallView "s" "e" _ (by decide),
    by decide,
    (content_height_is_recomputed_sum plainEnv).2.2 _ _ (by decide)⟩

/-! ## A view at the bottom stays at the bottom -/

/-- C3. When the scroll value equals the maximum before the operation, then
after `push_back` (defined as soon as there is a batch) and after
`prepend_batch` the scroll value equals the new maximum. -/
theorem pinned_stays_pinned (env : Env σ) (s : TimelineView σ)
    (h : s.scroll.value = s.scroll.maximum) :
    (∀ (state : σ) (ev : Event), s.batches_ ≠ [] →
      ∃ s', push_back env state ev s = some s' ∧ s'.scroll.value = s'.scroll.maximum) ∧
    (∀ (start finish : String) (events : List Event),
      (prepend_batch env start finish events s).scroll.value =
        (prepend_batch env start finish events s).scroll.maximum) := by
  refine ⟨?_, ?_⟩
  · intro state ev hne
    obtain ⟨s', hs'⟩ := push_back_defined env state ev s hne
    refine ⟨s', hs', ?_⟩
    obtain ⟨batches, _, hs⟩ := push_back_spec env state ev s s' hs'
    rw [hs]
    exact update_scrollbar_pinned false _ h
  · intro start finish events
    unfold prepend_batch; simp only []
    rw [grow_backlog_scroll]
    apply update_scrollbar_pinned
    rw [prepend_events_scroll]
    exact h

/-- C3, on `tallView` (value 225 = maximum 225): after one more live event the
view is at the new bottom, 280, and after a page of two events at 335. -/
theorem pinned_stays_pinned_witness :
    tallView.scroll.value = tallView.scroll.maximum ∧
    (∃ s', push_back plainEnv () (message "@a:x" "6") tallView = some s' ∧
      s'.scroll.value = s'.scroll.maximum) ∧
    (prepend_batch plainEnv "s" "e" [message "@a:x" "0", message "@a:x" "-1"] tallView).scroll.value =
      (prepend_batch plainEnv "s" "e"
        [message "@a:x" "0", message "@a:x" "-1"] tallView).scroll.maximum :=
  ⟨by decide,
    (pinned_stays_pinned plainEnv tallView (by decide)).1 () (message "@a:x" "6") (by decide),
    (pinned_stays_pinned plainEnv tallView (by decide)).2 "s" "e" _⟩

/-! ## The paginator -/

/-- C4. Where the trigger condition holds, two calls of `grow_backlog` in a row
issue exactly one request, the first one; and a call while `backlog_growing_`
is set returns the view unchanged. -/
theorem one_fetch_outstanding (s : TimelineView σ) :
    (s.scroll.value < scrollback_trigger_size s → s.backlog_growing_ = false →
      s.backlog_growable_ = true →
      (grow_backlog s).requests = s.requests ++
          [{ direction := Direction.BACKWARD, src := s.prev_batch_, limit := 100 }] ∧
        (grow_backlog s).backlog_growing_ = true ∧
        (grow_backlog (grow_backlog s)).requests = s.requests ++
          [{ direction := Direction.BACKWARD, src := s.prev_batch_, limit := 100 }] ∧
        grow_backlog (grow_backlog s) = grow_backlog s) ∧
    (s.backlog_growing_ = true → grow_backlog s = s) := by
  refine ⟨?_, ?_⟩
  · intro hv hg hb
    have h1 := grow_backlog_fires s hv hg hb
    have h2 : grow_backlog (grow_backlog s) = grow_backlog s := by
      apply grow_backlog_idle
      right; left; rw [h1]
    refine ⟨by rw [h1], by rw [h1], ?_, h2⟩
    rw [h2, h1]
  · intro hg
    exact grow_backlog_idle s (Or.inr (Or.inl hg))

/-- C4, on `scenarioView` (idle, value 0, trigger size 200) and on `tallView`
(fetch outstanding). -/
theorem one_fetch_outstanding_witness :
    ((grow_backlog scenarioView).requests =
        [{ direction := Direction.BACKWARD, src := "t0", limit := 100 }] ∧
      (grow_backlog scenarioView).backlog_growing_ = true ∧
      (grow_backlog (grow_backlog scenarioView)).requests =
        [{ direction := Direction.BACKWARD, src := "t0", limit := 100 }] ∧
      grow_backlog (grow_backlog scenarioView) = grow_backlog scenarioView) ∧
    tallView.backlog_growing_ = true ∧ grow_backlog tallView = tallView :=
  ⟨(one_fetch_outstanding scenarioView).1 (by decide) (by decide) (by decide),
    by decide, (one_fetch_outstanding tallView).2 (by decide)⟩

/-- C6. `prepend_batch` with a page of events puts exactly one new batch at the
front of the store, carrying the token `start`; the batch has one block per
event, and the blocks show the events in the reverse of the order of the
page. -/
theorem prepend_batch_reverses_page (env : Env σ) (start finish : String)
    (events : List Event) (s : TimelineView σ) :
    ∃ blocks : List Block,
      (prepend_batch env start finish events s).batches_ =
        { blocks := blocks, token := start } :: s.batches_ ∧
      blocks.length = events.length ∧
      blocks.map (fun x => x.event) = events.reverse := by
  obtain ⟨blocks, h1, h2, _⟩ := prepend_batch_store env start finish events s
  refine ⟨blocks, h1, ?_, h2⟩
  have := congrArg List.length h2
  simpa using this

/-- An idle, growable view below the trigger size issues one request for the
current token. -/
theorem grow_backlog_request (s : TimelineView σ)
    (hv : s.scroll.value < scrollback_trigger_size s)
    (hg : s.backlog_growing_ = false) (hb : s.backlog_growable_ = true) :
    (grow_backlog s).requests = s.requests ++
      [{ direction := Direction.BACKWARD, src := s.prev_batch_, limit := 100 }] := by
  rw [grow_backlog_fires s hv hg hb]

/-- C7 as stated fails: in `scrolledView` no fetch is in flight, the room is not
exhausted and the scroll value 50 equals the trigger size 50, yet
`grow_backlog` issues no request. -/
theorem no_fetch_at_trigger_size :
    scrolledView.backlog_growing_ = false ∧ scrolledView.backlog_growable_ = true ∧
    scrolledView.scroll.value = 50 ∧ scrollback_trigger_size scrolledView = 50 ∧
    (grow_backlog scrolledView).requests = scrolledView.requests ∧
    (grow_backlog scrolledView).backlog_growing_ = false := by
  decide

/-- C7, amended.  When no fetch is in flight and the room is not exhausted,
`grow_backlog` issues one request when the scroll value is strictly below
`scrollback_trigger_size()`, and returns the view unchanged when the value is
equal to it or above it. -/
theorem fetch_iff_below_trigger_size (s : TimelineView σ)
    (hg : s.backlog_growing_ = false) (hb : s.backlog_growable_ = true) :
    (s.scroll.value < scrollback_trigger_size s →
      (grow_backlog s).requests = s.requests ++
          [{ direction := Direction.BACKWARD, src := s.prev_batch_, limit := 100 }] ∧
        (grow_backlog s).backlog_growing_ = true) ∧
    (scrollback_trigger_size s ≤ s.scroll.value → grow_backlog s = s) := by
  refine ⟨?_, ?_⟩
  · intro hv
    rw [grow_backlog_fires s hv hg hb]
    exact ⟨rfl, rfl⟩
  · intro hv
    exact grow_backlog_idle s (Or.inl hv)

/-- C7 amended, on `scenarioView` (value 0 below 200) and `scrolledView`
(value 50, trigger size 50). -/
theorem fetch_iff_below_trigger_size_witness :
    ((grow_backlog scenarioView).requests = scenarioView.requests ++
          [{ direction := Direction.BACKWARD, src := scenarioView.prev_batch_, limit := 100 }] ∧
        (grow_backlog scenarioView).backlog_growing_ = true) ∧
    grow_backlog scrolledView = scrolledView :=
  ⟨(fetch_iff_below_trigger_size scenarioView (by decide) (by decide)).1 (by decide),
    (fetch_iff_below_trigger_size scrolledView (by decide) (by decide)).2 (by decide)⟩

/-- C8. The error handler clears `backlog_growing_` and leaves the token, the
exhausted flag, the batches, the content height, the scroll bar and the
request log as they were; a following `grow_backlog` whose trigger condition
holds issues a request with the same token. -/
theorem fetch_error_recovers (s : TimelineView σ) :
    (fetch_error s).backlog_growing_ = false ∧
    (fetch_error s).prev_batch_ = s.prev_batch_ ∧
    (fetch_error s).backlog_growable_ = s.backlog_growable_ ∧
    (fetch_error s).batches_ = s.batches_ ∧
    (fetch_error s).content_height_ = s.content_height_ ∧
    (fetch_error s).scroll = s.scroll ∧
    (fetch_error s).viewport = s.viewport ∧
    (fetch_error s).requests = s.requests ∧
    (s.scroll.value < scrollback_trigger_size s → s.backlog_growable_ = true →
      (grow_backlog (fetch_error s)).requests = s.requests ++
        [{ direction := Direction.BACKWARD, src := s.prev_batch_, limit := 100 }]) := by
  refine ⟨rfl, rfl, rfl, rfl, rfl, rfl, rfl, rfl, ?_⟩
  intro hv hb
  exact grow_backlog_request (fetch_error s) hv rfl hb

/-- C8, on the view `scenarioView` after `grow_backlog`: the request for token
`t0` fails and the next `grow_backlog` asks for `t0` again. -/
theorem fetch_error_recovers_witness :
    (grow_backlog scenarioView).backlog_growing_ = true ∧
    (grow_backlog (fetch_error (grow_backlog scenarioView))).requests =
      [{ direction := Direction.BACKWARD, src := "t0", limit := 100 },
        { direction := Direction.BACKWARD, src := "t0", limit := 100 }] :=
  ⟨by decide,
    (fetch_error_recovers (grow_backlog scenarioView)).2.2.2.2.2.2.2.2 (by decide) (by decide)⟩

/-! ## Exhaustion -/

/-- Once the room is exhausted an operation leaves it exhausted and issues no
request. -/
theorem step_exhausted (env : Env σ) (op : Op σ) (s s' : TimelineView σ)
    (hg : s.backlog_growable_ = false) (hs : step env op s = some s') :
    s'.backlog_growable_ = false ∧ s'.requests = s.requests := by
  cases op with
  | push_back state ev =>
    obtain ⟨batches, _, hs'⟩ := push_back_spec env state ev s s' hs
    rw [hs']
    refine ⟨?_, ?_⟩
    · rw [update_scrollbar_growable]; simp [hg]
    · rw [update_scrollbar_requests_of_not_growable _ _ (by simp [hg])]
  | end_batch token =>
    simp only [step, Option.some.injEq] at hs
    rw [← hs, end_batch_growable, end_batch_requests]
    exact ⟨hg, rfl⟩
  | prepend_batch start finish events =>
    simp only [step, Option.some.injEq] at hs
    rw [← hs]
    unfold prepend_batch; simp only []
    have h2 : (prepend_events env events
        { s with
          backlog_growing_ := false
          prev_batch_ := finish
          batches_ := { blocks := [], token := start } :: s.batches_ }).backlog_growable_ = false := by
      rw [prepend_events_growable]; simp [hg]
    have h3 := update_scrollbar_growable true (prepend_events env events
        { s with
          backlog_growing_ := false
          prev_batch_ := finish
          batches_ := { blocks := [], token := start } :: s.batches_ })
    rw [h2] at h3
    refine ⟨by rw [grow_backlog_growable]; exact h3, ?_⟩
    rw [grow_backlog_requests_of_not_growable _ h3,
      update_scrollbar_requests_of_not_growable _ _ h2, prepend_events_requests]
  | resize viewport oldSize =>
    simp only [step, Option.some.injEq] at hs
    rw [← hs]
    unfold resizeEvent; simp only []
    refine ⟨?_, ?_⟩
    · rw [update_scrollbar_growable]
      split
      · simp only [setPageStep_growable]; exact hg
      · simp only [setPageStep_growable]; exact hg
    · rw [update_scrollbar_requests_of_not_growable]
      · split
        · simp only [setPageStep_requests]
        · simp only [setPageStep_requests]
      · split
        · simp only [setPageStep_growable]; exact hg
        · simp only [setPageStep_growable]; exact hg
  | scroll value =>
    simp only [step, Option.some.injEq] at hs
    rw [← hs, setValue_growable, setValue_requests_of_not_growable _ _ hg]
    exact ⟨hg, rfl⟩
  | fetch_error =>
    simp only [step, Option.some.injEq] at hs
    rw [← hs]
    exact ⟨hg, rfl⟩
  | grow_backlog =>
    simp only [step, Option.some.injEq] at hs
    rw [← hs, grow_backlog_growable, grow_backlog_requests_of_not_growable _ hg]
    exact ⟨hg, rfl⟩

/-- On a view with at least one batch every operation is defined and leaves at
least one batch. -/
theorem step_defined (env : Env σ) (op : Op σ) (s : TimelineView σ) (hne : s.batches_ ≠ []) :
    ∃ s', step env op s = some s' ∧ s'.batches_ ≠ [] := by
  cases op with
  | push_back state ev =>
    obtain ⟨s', hs'⟩ := push_back_defined env state ev s hne
    exact ⟨s', hs', push_back_batches_ne_nil env state ev s s' hs'⟩
  | end_batch token => exact ⟨_, rfl, end_batch_batches_ne_nil _ _⟩
  | prepend_batch start finish events =>
    refine ⟨_, rfl, ?_⟩
    obtain ⟨blocks, h1, _, _⟩ := prepend_batch_store env start finish events s
    rw [h1]; simp
  | resize viewport oldSize =>
    refine ⟨_, rfl, ?_⟩
    unfold resizeEvent; simp only []
    rw [update_scrollbar_batches]
    split
    · apply relayout_batches_ne_nil
      rw [setPageStep_batches]; exact hne
    · rw [setPageStep_batches]; exact hne
  | scroll value => exact ⟨_, rfl, by rw [setValue_batches]; exact hne⟩
  | fetch_error => exact ⟨_, rfl, hne⟩
  | grow_backlog => exact ⟨_, rfl, by rw [grow_backlog_batches]; exact hne⟩

/-- From an exhausted view with at least one batch every sequence of operations
is defined, issues no request and ends exhausted. -/
theorem run_exhausted (env : Env σ) (ops : List (Op σ)) (s : TimelineView σ)
    (hne : s.batches_ ≠ []) (hg : s.backlog_growable_ = false) :
    ∃ s', run env ops s = some s' ∧ s'.backlog_growable_ = false ∧ s'.requests = s.requests := by
  induction ops generalizing s with
  | nil => exact ⟨s, rfl, hg, rfl⟩
  | cons op ops ih =>
    obtain ⟨s1, h1, hne1⟩ := step_defined env op s hne
    obtain ⟨hg1, hr1⟩ := step_exhausted env op s s1 hg h1
    obtain ⟨s2, h2, hg2, hr2⟩ := ih s1 hne1 hg1
    exact ⟨s2, by simp only [run, h1, h2], hg2, by rw [hr2, hr1]⟩

/-- C5. Once `push_back` or `prepend_batch` has processed an event of type
`m.room.create`, every further sequence of operations (appends, batch ends,
prepends, resizes, scrolls, fetch errors, calls of `grow_backlog`) is defined
and issues no request, and `grow_backlog` on the view it ends in returns that
view unchanged; processing the event issues no request either. -/
theorem exhaustion_is_permanent (env : Env σ) (s : TimelineView σ) (ops : List (Op σ)) :
    (∀ (state : σ) (ev : Event) (s1 : TimelineView σ), ev.type = "m.room.create" →
      push_back env state ev s = some s1 →
      s1.requests = s.requests ∧
      ∃ s2, run env ops s1 = some s2 ∧ s2.requests = s1.requests ∧
        s2.backlog_growable_ = false ∧ grow_backlog s2 = s2) ∧
    (∀ (start finish : String) (events : List Event),
      (∃ e ∈ events, e.type = "m.room.create") →
      (prepend_batch env start finish events s).requests = s.requests ∧
      ∃ s2, run env ops (prepend_batch env start finish events s) = some s2 ∧
        s2.requests = (prepend_batch env start finish events s).requests ∧
        s2.backlog_growable_ = false ∧ grow_backlog s2 = s2) := by
  refine ⟨?_, ?_⟩
  · intro state ev s1 hty hp
    obtain ⟨batches, _, hs⟩ := push_back_spec env state ev s s1 hp
    have hg1 : s1.backlog_growable_ = false := by
      rw [hs, update_scrollbar_growable]; simp [hty]
    have hr1 : s1.requests = s.requests := by
      rw [hs, update_scrollbar_requests_of_not_growable _ _ (by simp [hty])]
    obtain ⟨s2, h2, hg2, hr2⟩ := run_exhausted env ops s1
      (push_back_batches_ne_nil env state ev s s1 hp) hg1
    exact ⟨hr1, s2, h2, hr2, hg2, grow_backlog_idle s2 (Or.inr (Or.inr hg2))⟩
  · intro start finish events hex
    obtain ⟨e, he, hty⟩ := hex
    have hall : events.all (fun e => e.type != "m.room.create") = false := by
      rw [List.all_eq_false]
      exact ⟨e, he, by simp [hty]⟩
    have h2 : (prepend_events env events
        { s with
          backlog_growing_ := false
          prev_batch_ := finish
          batches_ := { blocks := [], token := start } :: s.batches_ }).backlog_growable_ = false := by
      rw [prepend_events_growable, hall]; simp
    have h3 := update_scrollbar_growable true (prepend_events env events
        { s with
          backlog_growing_ := false
          prev_batch_ := finish
          batches_ := { blocks := [], token := start } :: s.batches_ })
    rw [h2] at h3
    have hg1 : (prepend_batch env start finish events s).backlog_growable_ = false := by
      unfold prepend_batch; simp only []
      rw [grow_backlog_growable]; exact h3
    have hr1 : (prepend_batch env start finish events s).requests = s.requests := by
      unfold prepend_batch; simp only []
      rw [grow_backlog_requests_of_not_growable _ h3,
        update_scrollbar_requests_of_not_growable _ _ h2, prepend_events_requests]
    have hne1 : (prepend_batch env start finish events s).batches_ ≠ [] := by
      obtain ⟨blocks, h1, _, _⟩ := prepend_batch_store env start finish events s
      rw [h1]; simp
    obtain ⟨s2, hrun, hg2, hr2⟩ := run_exhausted env ops _ hne1 hg1
    exact ⟨hr1, s2, hrun, hr2, hg2, grow_backlog_idle s2 (Or.inr (Or.inr hg2))⟩

/-- C5, on `scenarioView`: the creation event arrives live, or in a page, and
`mixedOps` follows. -/
theorem exhaustion_is_permanent_witness :
    creation.type = "m.room.create" ∧
    (∃ s1, push_back plainEnv () creation scenarioView = some s1 ∧
      s1.requests = scenarioView.requests ∧
      ∃ s2, run plainEnv mixedOps s1 = some s2 ∧ s2.requests = s1.requests ∧
        s2.backlog_growable_ = false ∧ grow_backlog s2 = s2) ∧
    ((prepend_batch plainEnv "s" "e" [message "@a:x" "0", creation] scenarioView).requests =
        scenarioView.requests ∧
      ∃ s2, run plainEnv mixedOps
          (prepend_batch plainEnv "s" "e" [message "@a:x" "0", creation] scenarioView) = some s2 ∧
        s2.requests =
          (prepend_batch plainEnv "s" "e" [message "@a:x" "0", creation] scenarioView).requests ∧
        s2.backlog_growable_ = false ∧ grow_backlog s2 = s2) := by
  obtain ⟨s1, hs1⟩ := push_back_defined plainEnv () creation scenarioView (by decide)
  have h1 := (exhaustion_is_permanent plainEnv scenarioView mixedOps).1 () creation s1 rfl hs1
  exact ⟨rfl, ⟨s1, hs1, h1.1, h1.2⟩,
    (exhaustion_is_permanent plainEnv scenarioView mixedOps).2 "s" "e"
      [message "@a:x" "0", creation] ⟨creation, by simp, rfl⟩⟩

/-! ## The scenario -/

/-- C9 as stated fails.  `scenarioView` has a viewport 400 high (trigger size
200), one batch with one block of height 50, scroll value 0, no fetch in
flight and a growable backlog.  `grow_backlog` issues one request for token
`t0`; when `prepend_batch` has handled the empty page, `backlog_growing_` is
set again, not clear, and a second request, for the token `e` of the page, has
been issued. -/
theorem scenario_empty_page_refetches :
    scenarioView.viewport.height = 400 ∧ scrollback_trigger_size scenarioView = 200 ∧
    scenarioView.batches_.map (fun b => b.blocks.map (fun x => x.bounding_rect_height plainEnv)) =
      [[50]] ∧
    scenarioView.scroll.value = 0 ∧ scenarioView.backlog_growing_ = false ∧
    scenarioView.backlog_growable_ = true ∧ scenarioView.prev_batch_ = "t0" ∧
    (grow_backlog scenarioView).requests =
      [{ direction := Direction.BACKWARD, src := "t0", limit := 100 }] ∧
    ¬ (prepend_batch plainEnv "s" "e" [] (grow_backlog scenarioView)).backlog_growing_ = false ∧
    (prepend_batch plainEnv "s" "e" [] (grow_backlog scenarioView)).requests =
      [{ direction := Direction.BACKWARD, src := "t0", limit := 100 },
        { direction := Direction.BACKWARD, src := "e", limit := 100 }] := by
  decide

/-- C9, amended.  In a reachable view with viewport height 400 (trigger size
200), scroll value 0, no fetch in flight and a growable backlog, `grow_backlog`
issues exactly one `BACKWARD` request with limit 100 and the token
`prev_batch_`.  When that fetch completes with an empty page, after
`prepend_batch` the backlog is still growable, the token is the end token of
the page, the store has one new empty batch, and, the scroll value being still
below the trigger size, `prepend_batch` has issued the next request, for the
new token: a fetch is in flight again. -/
theorem scenario_fetch_then_empty_page (env : Env σ) (s : TimelineView σ)
    (hr : Reachable env s) (hvh : s.viewport.height = 400) (hv : s.scroll.value = 0)
    (hg : s.backlog_growing_ = false) (hb : s.backlog_growable_ = true)
    (start finish : String) :
    scrollback_trigger_size s = 200 ∧
    (grow_backlog s).requests = s.requests ++
      [{ direction := Direction.BACKWARD, src := s.prev_batch_, limit := 100 }] ∧
    (prepend_batch env start finish [] (grow_backlog s)).backlog_growable_ = true ∧
    (prepend_batch env start finish [] (grow_backlog s)).prev_batch_ = finish ∧
    (prepend_batch env start finish [] (grow_backlog s)).batches_ =
      { blocks := [], token := start } :: s.batches_ ∧
    (prepend_batch env start finish [] (grow_backlog s)).scroll = s.scroll ∧
    (prepend_batch env start finish [] (grow_backlog s)).backlog_growing_ = true ∧
    (prepend_batch env start finish [] (grow_backlog s)).requests = s.requests ++
      [{ direction := Direction.BACKWARD, src := s.prev_batch_, limit := 100 },
        { direction := Direction.BACKWARD, src := finish, limit := 100 }] := by
  have htrig : scrollback_trigger_size s = 200 := by
    unfold scrollback_trigger_size; rw [hvh]; rfl
  have hlt : s.scroll.value < scrollback_trigger_size s := by rw [htrig, hv]; decide
  have h1 := grow_backlog_fires s hlt hg hb
  have hinv := reachable_ScrollInv env s hr
  -- the view handed to `update_scrollbar`
  obtain ⟨s2, hs2⟩ : ∃ s2 : TimelineView σ, s2 =
      { s with
        backlog_growing_ := false
        prev_batch_ := finish
        batches_ := { blocks := [], token := start } :: s.batches_
        requests := s.requests ++
          [{ direction := Direction.BACKWARD, src := s.prev_batch_, limit := 100 }] } := ⟨_, rfl⟩
  have hinv2 : ScrollInv s2 := ScrollInv_congr s s2 hinv (by rw [hs2]) (by rw [hs2]) (by rw [hs2])
  have hp : prepend_batch env start finish [] (grow_backlog s) = grow_backlog s2 := by
    rw [h1]
    unfold prepend_batch; simp only [prepend_events]
    rw [← hs2, update_scrollbar_of_inv true s2 hinv2]
  have h2 := grow_backlog_fires s2 (by rw [hs2]; exact hlt) (by rw [hs2]) (by rw [hs2]; exact hb)
  refine ⟨htrig, by rw [h1], ?_, ?_, ?_, ?_, ?_, ?_⟩
  · rw [hp, grow_backlog_growable, hs2]; exact hb
  · rw [hp, grow_backlog_prev_batch, hs2]
  · rw [hp, grow_backlog_batches, hs2]
  · rw [hp, grow_backlog_scroll, hs2]
  · rw [hp, h2]
  · rw [hp, h2, hs2]; simp

/-- C9 amended, on `scenarioView`. -/
theorem scenario_fetch_then_empty_page_witness :
    scenarioView.viewport.height = 400 ∧ scenarioView.scroll.value = 0 ∧
    scenarioView.backlog_growing_ = false ∧ scenarioView.backlog_growable_ = true ∧
    (prepend_batch plainEnv "s" "e" [] (grow_backlog scenarioView)).backlog_growable_ = true ∧
    (prepend_batch plainEnv "s" "e" [] (grow_backlog scenarioView)).backlog_growing_ = true :=
  ⟨by decide, by decide, by decide, by decide,
    (scenario_fetch_then_empty_page plainEnv scenarioView scenarioView_reachable
      (by decide) (by decide) (by decide) (by decide) "s" "e").2.2.1,
    (scenario_fetch_then_empty_page plainEnv scenarioView scenarioView_reachable
      (by decide) (by decide) (by decide) (by decide) "s" "e").2.2.2.2.2.2.1⟩

/-! ## The walk of `paintEvent` -/

/-- The inner loop only adds drawn blocks that meet the viewport. -/
theorem paint_blocks_painted (env : Env σ) (s : TimelineView σ) (bs : List Block) (p : Painter)
    (hp : ∀ x ∈ p.painted,
      0 ≤ x.2.1 + x.1.bounding_rect_height env ∧ x.2.1 < (s.viewport.height : Int)) :
    ∀ x ∈ (paint_blocks env s bs p).painted,
      0 ≤ x.2.1 + x.1.bounding_rect_height env ∧ x.2.1 < (s.viewport.height : Int) := by
  induction bs generalizing p with
  | nil => exact hp
  | cons b rest ih =>
    simp only [paint_blocks]
    split
    · exact hp
    · next hbreak =>
      apply ih
      split
      · next hvis =>
        intro x hx
        simp only [List.mem_append, List.mem_singleton] at hx
        rcases hx with hx | hx
        · exact hp x hx
        · rw [hx]; simp only []; omega
      · exact hp

theorem paint_batches_painted (env : Env σ) (s : TimelineView σ) (bs : List Batch) (p : Painter)
    (hp : ∀ x ∈ p.painted,
      0 ≤ x.2.1 + x.1.bounding_rect_height env ∧ x.2.1 < (s.viewport.height : Int)) :
    ∀ x ∈ (paint_batches env s bs p).painted,
      0 ≤ x.2.1 + x.1.bounding_rect_height env ∧ x.2.1 < (s.viewport.height : Int) := by
  induction bs generalizing p with
  | nil => exact hp
  | cons b rest ih =>
    simp only [paint_batches]
    exact ih _ (paint_blocks_painted env s _ p hp)

/-- Every block that `paintEvent` draws meets the vertical extent of the
viewport: its bottom edge is not above the top and its top edge is above the
bottom. -/
theorem paintEvent_painted_in_view (env : Env σ) (s : TimelineView σ) :
    ∀ x ∈ (paintEvent env s).painted,
      0 ≤ x.2.1 + x.1.bounding_rect_height env ∧ x.2.1 < (s.viewport.height : Int) := by
  unfold paintEvent
  apply paint_batches_painted
  intro x hx
  simp at hx

/-- Once the running offset is above the top of the viewport, the inner loop
takes the bounding rectangle of the newest block of the batch, if there is one,
draws nothing and stops. -/
theorem paint_blocks_above (env : Env σ) (s : TimelineView σ) (bs : List Block) (p : Painter)
    (hy : p.y < 0) :
    (paint_blocks env s bs p).painted = p.painted ∧
    (paint_blocks env s bs p).visited = p.visited ++ bs.take 1 ∧
    (paint_blocks env s bs p).y < 0 := by
  cases bs with
  | nil => exact ⟨rfl, by simp [paint_blocks], hy⟩
  | cons b rest =>
    simp only [paint_blocks]
    rw [if_pos (by omega)]
    refine ⟨rfl, by simp, ?_⟩
    simp only [Block.bounding_rect_height]
    omega

/-- Once the running offset is above the top of the viewport, the outer loop
still goes through every older batch, taking the bounding rectangle of the
newest block of each, and draws nothing. -/
theorem paint_batches_above (env : Env σ) (s : TimelineView σ) (bs : List Batch) (p : Painter)
    (hy : p.y < 0) :
    (paint_batches env s bs p).painted = p.painted ∧
    (paint_batches env s bs p).visited =
      p.visited ++ (bs.map (fun b => b.blocks.reverse.take 1)).flatten := by
  induction bs generalizing p with
  | nil => simp [paint_batches]
  | cons b rest ih =>
    simp only [paint_batches]
    obtain ⟨h1, h2, h3⟩ := paint_blocks_above env s b.blocks.reverse p hy
    obtain ⟨h4, h5⟩ := ih _ h3
    refine ⟨by rw [h4, h1], ?_⟩
    rw [h5, h2]; simp

/-- C10, the code at a failing input.  `tallView` holds an older batch with
blocks 1, 2 and a newer batch with blocks 3, 4, 5, each 50 high with spacing 5,
in a viewport 100 high scrolled to the bottom.  The walk draws 5 (top edge at
50) and 4 (top edge at -5); block 3 has its bottom edge at -10, above the top,
and ends the inner loop; the outer loop goes on to the older batch and takes
the bounding rectangle of block 2. -/
theorem paintEvent_walk_reaches_older_batch :
    tallView.batches_.map (fun b => b.blocks.map (fun x => x.event.body)) =
      [["1", "2"], ["3", "4", "5"]] ∧
    tallView.viewport.height = 100 ∧ tallView.scroll.value = 225 ∧
    tallView.scroll.maximum = 225 ∧
    (paintEvent plainEnv tallView).painted.map (fun x => (x.1.event.body, x.2.1)) =
      [("5", 50), ("4", -5)] ∧
    (paintEvent plainEnv tallView).visited.map (fun x => x.event.body) = ["5", "4", "3", "2"] := by
  decide

/-! ## The content height in every reachable state -/

/-- Every operation keeps the content height equal to the recomputed one. -/
theorem step_content_height (env : Env σ) (op : Op σ) (s s' : TimelineView σ)
    (hi : s.content_height_ = recomputed_height env s) (hs : step env op s = some s') :
    s'.content_height_ = recomputed_height env s' := by
  cases op with
  | push_back state ev => exact push_back_height env state ev s s' hi hs
  | end_batch token =>
    simp only [step, Option.some.injEq] at hs
    rw [← hs, end_batch_content_height, end_batch_height]; exact hi
  | prepend_batch start finish events =>
    simp only [step, Option.some.injEq] at hs
    rw [← hs]; exact prepend_batch_height env start finish events s hi
  | resize viewport oldSize =>
    simp only [step, Option.some.injEq] at hs
    rw [← hs]
    by_cases hw : (viewport.width : Int) = oldSize.width
    · unfold resizeEvent recomputed_height; simp only []
      rw [update_scrollbar_content_height, update_scrollbar_batches, if_neg (by simpa using hw),
        setPageStep_content_height, setPageStep_batches]
      exact hi
    · exact resizeEvent_height env _ _ hw
  | scroll value =>
    simp only [step, Option.some.injEq] at hs
    rw [← hs]
    unfold recomputed_height
    rw [setValue_content_height, setValue_batches]; exact hi
  | fetch_error =>
    simp only [step, Option.some.injEq] at hs
    rw [← hs]; exact hi
  | grow_backlog =>
    simp only [step, Option.some.injEq] at hs
    rw [← hs]
    unfold recomputed_height
    rw [grow_backlog_content_height, grow_backlog_batches]; exact hi

/-- In every reachable state the content height is the sum, over all blocks of
all batches, of bounding-rect height plus spacing. -/
theorem reachable_content_height (env : Env σ) (s : TimelineView σ) (h : Reachable env s) :
    s.content_height_ = recomputed_height env s := by
  induction h with
  | create initial_state viewport => rfl
  | step op s s' _ hs ih => exact step_content_height env op s s' ih hs

/-! ## Scroll position across a prepend -/

theorem batches_height_nonneg (env : Env σ) (bs : List Batch) : 0 ≤ batches_height env bs := by
  induction bs with
  | nil => simp [batches_height]
  | cons b rest ih =>
    have := blocks_height_nonneg env b.blocks
    simp only [batches_height]; omega

theorem hugeView_reachable : Reachable hugeEnv hugeView :=
  reachable_run hugeEnv hugeOps (TimelineView.create () { width := 300, height := 100 }) hugeView
    (Reachable.create () _) rfl

/-- C2 as stated fails.  `hugeView` is reachable, with scroll value 60,
maximum 1999999960 and content height 2000000010.  A page of one event, whose
block with its spacing is 1000000005 high, brings the content height to
3000000015; with the trigger size 50 the sum is above `INT_MAX`, `fake_height`
is negative, and `update_scrollbar` sets maximum 0 and value 0: the value does
not rise by the height of the page and `maximum - value` goes from 1999999900
to 0. -/
theorem prepend_batch_shift_wraps :
    Reachable hugeEnv hugeView ∧
    hugeView.scroll.value = 60 ∧ hugeView.scroll.maximum = 1999999960 ∧
    hugeView.scroll.value ≠ hugeView.scroll.maximum ∧
    (prepend_batch hugeEnv "s" "e" [message "@a:x" "0"] hugeView).batches_.drop 1 =
      hugeView.batches_ ∧
    ((prepend_batch hugeEnv "s" "e" [message "@a:x" "0"] hugeView).batches_.take 1).map
      (fun b => blocks_height hugeEnv b.blocks) = [1000000005] ∧
    (prepend_batch hugeEnv "s" "e" [message "@a:x" "0"] hugeView).scroll.value = 0 ∧
    (prepend_batch hugeEnv "s" "e" [message "@a:x" "0"] hugeView).scroll.maximum = 0 ∧
    ¬ (prepend_batch hugeEnv "s" "e" [message "@a:x" "0"] hugeView).scroll.value =
      hugeView.scroll.value + 1000000005 ∧
    ¬ (prepend_batch hugeEnv "s" "e" [message "@a:x" "0"] hugeView).scroll.maximum -
        (prepend_batch hugeEnv "s" "e" [message "@a:x" "0"] hugeView).scroll.value =
      hugeView.scroll.maximum - hugeView.scroll.value :=
  ⟨hugeView_reachable, by decide⟩

/-- C2, amended.  In a reachable state whose scroll value is not the maximum,
when the content height after the prepend plus the trigger size does not exceed
`INT_MAX`, `prepend_batch` puts one batch at the front, adds the height of that
batch (sum of block height plus `block_spacing()` over its blocks) to the
content height, and raises the scroll value by exactly that height, so
`maximum - value` is what it was. -/
theorem prepend_batch_shifts_value (env : Env σ) (s : TimelineView σ)
    (hr : Reachable env s) (hne : s.scroll.value ≠ s.scroll.maximum)
    (start finish : String) (events : List Event)
    (hfit : (prepend_batch env start finish events s).content_height_ +
      scrollback_trigger_size s ≤ 2147483647) :
    ∃ blocks : List Block,
      (prepend_batch env start finish events s).batches_ =
        { blocks := blocks, token := start } :: s.batches_ ∧
      blocks.map (fun x => x.event) = events.reverse ∧
      (prepend_batch env start finish events s).content_height_ =
        s.content_height_ + blocks_height env blocks ∧
      (prepend_batch env start finish events s).scroll.value =
        s.scroll.value + blocks_height env blocks ∧
      (prepend_batch env start finish events s).scroll.maximum -
          (prepend_batch env start finish events s).scroll.value =
        s.scroll.maximum - s.scroll.value := by
  obtain ⟨h0, h1, h2⟩ := reachable_ScrollInv env s hr
  have hc0 : 0 ≤ s.content_height_ := by
    rw [reachable_content_height env s hr]
    exact batches_height_nonneg env s.batches_
  obtain ⟨blocks, hb1, hb2, hb3⟩ := prepend_batch_store env start finish events s
  have hH := blocks_height_nonneg env blocks
  rw [hb3] at hfit
  have ht0 : 0 ≤ scrollback_trigger_size s := by unfold scrollback_trigger_size; omega
  have hw1 : wrap_int (s.content_height_ + scrollback_trigger_size s) =
      s.content_height_ + scrollback_trigger_size s :=
    wrap_int_of_fits _ (by omega) (by omega)
  have hw2 : wrap_int (s.content_height_ + blocks_height env blocks + scrollback_trigger_size s) =
      s.content_height_ + blocks_height env blocks + scrollback_trigger_size s :=
    wrap_int_of_fits _ (by omega) (by omega)
  unfold scroll_range at h2
  rw [hw1] at h2
  -- the view handed to `update_scrollbar`
  obtain ⟨s2, hs2⟩ : ∃ s2, s2 = prepend_events env events
      { s with
        backlog_growing_ := false
        prev_batch_ := finish
        batches_ := { blocks := [], token := start } :: s.batches_ } := ⟨_, rfl⟩
  have hp : prepend_batch env start finish events s = grow_backlog (update_scrollbar true s2) := by
    rw [hs2]; rfl
  have hscroll : s2.scroll = s.scroll := by rw [hs2, prepend_events_scroll]
  have hview : s2.viewport = s.viewport := by rw [hs2, prepend_events_viewport]
  have hcont : s2.content_height_ = s.content_height_ + blocks_height env blocks := by
    have := hb3
    rw [hp, grow_backlog_content_height, update_scrollbar_content_height] at this
    exact this
  have htrig : scrollback_trigger_size s2 = scrollback_trigger_size s := by
    unfold scrollback_trigger_size; rw [hview]
  have hmax : (update_scrollbar true s2).scroll.maximum =
      s.scroll.maximum + blocks_height env blocks := by
    rw [update_scrollbar_maximum, hview, hcont, htrig, hw2]
    split_ifs at h2 ⊢ <;> omega
  -- the last assignment of `update_scrollbar`, on the view with the new range
  have key : ∀ s1 : TimelineView σ,
      s1.scroll.maximum = s.scroll.maximum + blocks_height env blocks →
      s1.scroll.value = s.scroll.value →
      (setValue (wrap_int (s1.scroll.value + wrap_int (s1.scroll.maximum - s2.scroll.maximum)))
        s1).scroll.value = s.scroll.value + blocks_height env blocks := by
    intro s1 hm hv
    have hmle : s.scroll.maximum + blocks_height env blocks ≤ 2147483647 := by
      split_ifs at h2 <;> omega
    rw [setValue_value, hm, hv, hscroll,
      show s.scroll.maximum + blocks_height env blocks - s.scroll.maximum =
        blocks_height env blocks by omega,
      wrap_int_of_fits (blocks_height env blocks) (by omega) (by omega),
      wrap_int_of_fits (s.scroll.value + blocks_height env blocks) (by omega) (by omega)]
    omega
  have hval : (update_scrollbar true s2).scroll.value =
      s.scroll.value + blocks_height env blocks := by
    unfold update_scrollbar; simp only []
    rw [if_neg (by rw [hscroll]; simpa using hne)]
    simp only [if_true]
    apply key
    · rw [setMaximum_maximum, hview, hcont, htrig, hw2]
      split_ifs at h2 ⊢ <;> omega
    · rw [setMaximum_value _ _ (by rw [hscroll]; exact h0) (by rw [hscroll]; exact h1),
        hview, hcont, htrig, hw2, hscroll]
      split_ifs at h2 ⊢ <;> omega
  refine ⟨blocks, hb1, hb2, hb3, ?_, ?_⟩
  · rw [hp, grow_backlog_scroll, hval]
  · rw [hp, grow_backlog_scroll, hval, hmax]; omega

/-- C2 amended, on `scrolledView` (value 50, maximum 225, content height 275)
with a page of two events. -/
theorem prepend_batch_shifts_value_witness :
    scrolledView.scroll.value ≠ scrolledView.scroll.maximum ∧
    (prepend_batch plainEnv "s" "e"
        [message "@a:x" "0", message "@a:x" "-1"] scrolledView).content_height_ +
      scrollback_trigger_size scrolledView ≤ 2147483647 ∧
    ∃ blocks : List Block,
      (prepend_batch plainEnv "s" "e" [message "@a:x" "0", message "@a:x" "-1"] scrolledView).batches_ =
        { blocks := blocks, token := "s" } :: scrolledView.batches_ ∧
      blocks.map (fun x => x.event) = [message "@a:x" "0", message "@a:x" "-1"].reverse ∧
      (prepend_batch plainEnv "s" "e"
          [message "@a:x" "0", message "@a:x" "-1"] scrolledView).content_height_ =
        scrolledView.content_height_ + blocks_height plainEnv blocks ∧
      (prepend_batch plainEnv "s" "e" [message "@a:x" "0", message "@a:x" "-1"] scrolledView).scroll.value =
        scrolledView.scroll.value + blocks_height plainEnv blocks ∧
      (prepend_batch plainEnv "s" "e" [message "@a:x" "0", message "@a:x" "-1"] scrolledView).scroll.maximum -
          (prepend_batch plainEnv "s" "e" [message "@a:x" "0", message "@a:x" "-1"] scrolledView).scroll.value =
        scrolledView.scroll.maximum - scrolledView.scroll.value :=
  ⟨by decide, by decide,
    prepend_batch_shifts_value plainEnv scrolledView scrolledView_reachable (by decide) "s" "e" _
      (by decide)⟩

end Nachat
